import Mathlib

/-!
# Verification of the TennisRacquetTension pitch-detection core

Shallow embedding of the measurement-consensus pipeline of the
TennisRacquetTension application:

* `src/hooks/useAudioAnalyzer.ts` — the per-tick signal-window scan,
  silence gate and consensus / lock-in state machine;
* `src/lib/audioAnalysis.ts` — gauge normalisation, spectral peak
  interpolation and the string-physics model;
* `src/lib/stringDatabase.ts` — the measured linear-density table and its
  lookup;
* `src/App.tsx` — `computeTension`, gluing the physics model together.

Audio samples, frequencies and magnitudes are modelled as rationals where
the code only ever compares or combines them algebraically, and as reals
where the code takes square roots or multiplies by π.  JavaScript
`Math.round` is `fun x => ⌊x + 1/2⌋`, which is exactly Mathlib's `round`.
-/

/-! ## Consensus / lock-in state machine (`useAudioAnalyzer.ts`)

The hook keeps its mutable state in React refs (`lockReadingsRef`,
`lockedRef`) plus a published `AnalyzerState` snapshot.  We model both in
one record: `readings`/`locked` are the refs, `status`/`frequency`/
`snapshot` are the published `status`/`frequency`/`lockReadings` fields.
-/

inductive Status where
  | idle
  | requesting
  | listening
  | locked
deriving DecidableEq, Repr

structure Machine where
  locked : Bool
  readings : List ℚ
  status : Status
  frequency : Option ℚ
  snapshot : List ℚ
deriving DecidableEq, Repr

/-- `LOCK_THRESHOLD = 0.03` (`useAudioAnalyzer.ts` line 11). -/
def LOCK_THRESHOLD : ℚ := 3 / 100

/-- `LOCK_COUNT = 5` (`useAudioAnalyzer.ts` line 12). -/
def LOCK_COUNT : ℕ := 5

/-- `MIN_SIGNAL_RMS = 0.004` (`useAudioAnalyzer.ts` line 13). -/
def MIN_SIGNAL_RMS : ℚ := 4 / 1000

/-- JavaScript `Math.round(x * 10) / 10` — round to one decimal place.
`Math.round` rounds half toward `+∞`, exactly Mathlib's `round`. -/
def round1 (q : ℚ) : ℚ := (round (q * 10) : ℤ) / 10

/-- `readings.length === 0 || readings.every(r => Math.abs(r - freq) / r < LOCK_THRESHOLD)`
(`useAudioAnalyzer.ts` lines 100–102). -/
def isConsistent (readings : List ℚ) (freq : ℚ) : Bool :=
  readings.isEmpty || readings.all fun r => decide (|r - freq| / r < LOCK_THRESHOLD)

/-- The validator guard `validateRef.current && !validateRef.current(freq)`
(`useAudioAnalyzer.ts` line 92): `true` exactly when a validator is set and
rejects the frequency. -/
def validRejects (validate : Option (ℚ → Bool)) (freq : ℚ) : Bool :=
  match validate with
  | some v => !(v freq)
  | none => false

/-- One detection tick of `useAudioAnalyzer.ts` (lines 50–134), given the
frequency estimate produced this tick (`none` when the gate or the peak
search produced nothing).  JavaScript tests `if (freq)`, which is falsy for
`null` and for `0`, hence the explicit `freq = 0` case. -/
def tick (m : Machine) (est : Option ℚ) (validate : Option (ℚ → Bool)) : Machine :=
  if m.locked then m
  else
    match est with
    | none => m
    | some freq =>
      if freq = 0 then m
      else if validRejects validate freq then
        -- line 94: show the frequency but don't count it
        { m with frequency := some (round1 freq) }
      else
        let readings := m.readings
        let readings' := if isConsistent readings freq then readings ++ [freq] else [freq]
        if LOCK_COUNT ≤ readings'.length then
          let avgFreq := readings'.sum / (readings'.length : ℚ)
          { locked := true
            readings := readings'
            status := Status.locked
            frequency := some (round1 avgFreq)
            snapshot := readings' }
        else
          { m with
            readings := readings'
            frequency := some (round1 freq)
            snapshot := readings' }

/-- `stop` (`useAudioAnalyzer.ts` lines 139–155): clears the refs and
publishes the idle state. -/
def stop : Machine :=
  { locked := false, readings := [], status := Status.idle
    frequency := none, snapshot := [] }

/-- `reset` (`useAudioAnalyzer.ts` lines 203–212): clears the refs and
publishes a fresh listening state. -/
def reset : Machine :=
  { locked := false, readings := [], status := Status.listening
    frequency := none, snapshot := [] }

/-- The state right after a successful `start` (`useAudioAnalyzer.ts`
lines 190–194): refs cleared, listening published. -/
def startListening : Machine :=
  { locked := false, readings := [], status := Status.listening
    frequency := none, snapshot := [] }

/-- Initial state of the hook (`useAudioAnalyzer.ts` lines 23–28). -/
def initialMachine : Machine :=
  { locked := false, readings := [], status := Status.idle
    frequency := none, snapshot := [] }

/-- States reachable by any interleaving of ticks (with arbitrary
estimates and validators), `stop`, `reset` and successful `start`. -/
inductive Reachable : Machine → Prop where
  | init : Reachable initialMachine
  | tick (m : Machine) (est : Option ℚ) (validate : Option (ℚ → Bool)) :
      Reachable m → Reachable (tick m est validate)
  | stop (m : Machine) : Reachable m → Reachable stop
  | reset (m : Machine) : Reachable m → Reachable reset
  | start (m : Machine) : Reachable m → Reachable startListening

/-! ## Signal window selection and silence gate (`useAudioAnalyzer.ts` lines 62–90)

The tick scans the rolling time-domain buffer in 4096-sample chunks,
starting at `len - 16384` and walking back to the start, keeping the chunk
offset of highest RMS.  The code compares `Math.sqrt(sumSq / checkLen)`
values; since `Real.sqrt` is strictly monotone on nonnegatives we carry
the radicands (mean squares) instead, which keeps every definition
computable — `rmsCompare_iff` and `rmsGate_iff` below record that the
comparisons agree with the code's square-rooted ones. -/

/-- Sum of squares of `n` samples starting at `off`
(the `sumSq` loop, lines 69–73). -/
def sliceSumSq (buf : List ℚ) (off n : ℕ) : ℚ :=
  (((buf.drop off).take n).map fun x => x * x).sum

/-- `checkLen = Math.min(4096, len - off)` (line 70). -/
def checkLen (len off : ℕ) : ℕ := min 4096 (len - off)

/-- The mean square of the 4096-sample chunk at `off` — the radicand of
`rms = Math.sqrt(sumSq / checkLen)` (line 74). -/
def chunkMeanSq (buf : List ℚ) (off : ℕ) : ℚ :=
  sliceSumSq buf off (checkLen buf.length off) / (checkLen buf.length off : ℚ)

/-- The candidate offsets of the scan loop
`for (off = Math.max(0, len - analysisSize); off >= 0; off -= 4096)`
(line 68), in scan order (tail of the buffer first).  Natural subtraction
supplies the `Math.max(0, ·)`. -/
def scanOffsets (len : ℕ) : List ℕ :=
  (List.range ((len - 16384) / 4096 + 1)).map fun k => (len - 16384) - 4096 * k

/-- The scan of lines 64–79: fold over the candidate offsets keeping
`(bestOffset, bestRms)`, replacing only on strict improvement; the initial
pair is `(Math.max(0, len - analysisSize), 0)`.  The second component is
the mean square (radicand) of the best RMS. -/
def selectScan (buf : List ℚ) : ℕ × ℚ :=
  (scanOffsets buf.length).foldl
    (fun best off =>
      let m := chunkMeanSq buf off
      if best.2 < m then (off, m) else best)
    (buf.length - 16384, 0)

/-- `bestRms` as a mean square. -/
def bestOf : ℕ × ℚ → ℚ
  | (_, best) => best

def bestMeanSq (buf : List ℚ) : ℚ := bestOf (selectScan buf)

/-- `windowStart = Math.max(0, Math.min(bestOffset, len - analysisSize))`
(line 82). -/
def windowStart (buf : List ℚ) : ℕ :=
  min (selectScan buf).1 (buf.length - 16384)

/-- `analysisBuf = timeDomainBuf.subarray(windowStart, windowStart + analysisSize)`
(line 83). -/
def analysisWindow (buf : List ℚ) : List ℚ :=
  (buf.drop (windowStart buf)).take 16384

/-- The frequency estimate a tick produces (lines 85–88): gate on
`bestRms >= MIN_SIGNAL_RMS`, then feed the selected window to the
detector (abstracted as `detect`, standing for
`detectFundamentalFrequency(analysisBuf, ctx.sampleRate)`).  The gate
compares radicands: `bestRms ≥ 0.004` iff `bestMeanSq ≥ 0.004²`. -/
def producedEstimate (buf : List ℚ) (detect : List ℚ → Option ℚ) : Option ℚ :=
  if MIN_SIGNAL_RMS * MIN_SIGNAL_RMS ≤ bestMeanSq buf then detect (analysisWindow buf)
  else none

/-- The consensus update applied to the gated estimate (lines 90–130). -/
def fullTick (m : Machine) (buf : List ℚ) (validate : Option (ℚ → Bool))
    (detect : List ℚ → Option ℚ) : Machine :=
  tick m (producedEstimate buf detect) validate

/-! ### The square-root bridging lemmas -/

/-- The code compares `Math.sqrt` of mean squares; comparing the radicands
is equivalent. -/
theorem rmsCompare_iff (a b : ℚ) (ha : 0 ≤ a) :
    Real.sqrt a < Real.sqrt b ↔ (a : ℝ) < b := by
  constructor
  · intro h
    by_contra hle
    push_neg at hle
    exact absurd (Real.sqrt_le_sqrt hle) (not_le.mpr h)
  · intro h
    exact (Real.sqrt_lt_sqrt (by exact_mod_cast ha) h)

/-- The silence gate `bestRms >= MIN_SIGNAL_RMS` is equivalent to the
radicand comparison used in `fullTick`. -/
theorem rmsGate_iff (a : ℚ) (ha : 0 ≤ a) :
    ((MIN_SIGNAL_RMS : ℝ) ≤ Real.sqrt a) ↔ ((MIN_SIGNAL_RMS * MIN_SIGNAL_RMS : ℚ) : ℝ) ≤ (a : ℝ) := by
  have h4 : (0 : ℝ) ≤ (MIN_SIGNAL_RMS : ℚ) := by norm_num [MIN_SIGNAL_RMS]
  constructor
  · intro h
    have := Real.sqrt_le_sqrt (by exact_mod_cast h4 : (0:ℝ) ≤ ((MIN_SIGNAL_RMS : ℚ) : ℝ))
    have hsq : ((MIN_SIGNAL_RMS : ℚ) : ℝ) ^ 2 ≤ Real.sqrt a ^ 2 := by
      have h0 : (0 : ℝ) ≤ ((MIN_SIGNAL_RMS : ℚ) : ℝ) := by exact_mod_cast h4
      exact pow_le_pow_left₀ h0 h 2
    rw [Real.sq_sqrt (by exact_mod_cast ha)] at hsq
    push_cast
    nlinarith [hsq]
  · intro h
    have : ((MIN_SIGNAL_RMS : ℚ) : ℝ) = Real.sqrt (((MIN_SIGNAL_RMS * MIN_SIGNAL_RMS : ℚ) : ℝ)) := by
      push_cast
      rw [show ((MIN_SIGNAL_RMS : ℚ) : ℝ) * ((MIN_SIGNAL_RMS : ℚ) : ℝ)
            = ((MIN_SIGNAL_RMS : ℚ) : ℝ) ^ 2 by ring, Real.sqrt_sq (by exact_mod_cast h4)]
    rw [this]
    exact Real.sqrt_le_sqrt (by exact_mod_cast h)

/-! ## Claim theorems: consensus state machine -/

/-- Invariant used to prove the lock-buffer bound: an unlocked machine
holds at most 4 readings, any machine at most 5, and the published
snapshot at most 5. -/
def MachineInv (m : Machine) : Prop :=
  (m.locked = false → m.readings.length ≤ 4) ∧
    m.readings.length ≤ 5 ∧ m.snapshot.length ≤ 5

/-- Ticks on a locked machine are no-ops (`useAudioAnalyzer.ts` line 51). -/
theorem tick_locked (m : Machine) (est : Option ℚ) (validate : Option (ℚ → Bool))
    (hl : m.locked = true) : tick m est validate = m := by
  simp [tick, hl]

/-- A tick with no estimate is a no-op. -/
theorem tick_none (m : Machine) (validate : Option (ℚ → Bool)) :
    tick m none validate = m := by
  unfold tick
  split <;> rfl

/-- The result of a tick on an unlocked machine for a nonzero,
validator-accepted estimate, split by whether the lock count is reached. -/
theorem tick_accepted (m : Machine) (freq : ℚ) (validate : Option (ℚ → Bool))
    (hlock : m.locked = false) (hf : freq ≠ 0)
    (hval : validRejects validate freq = false) :
    tick m (some freq) validate =
      (if LOCK_COUNT ≤ (if isConsistent m.readings freq then m.readings ++ [freq]
          else [freq]).length then
        { locked := true
          readings := if isConsistent m.readings freq then m.readings ++ [freq] else [freq]
          status := Status.locked
          frequency := some (round1
            ((if isConsistent m.readings freq then m.readings ++ [freq] else [freq]).sum /
              ((if isConsistent m.readings freq then m.readings ++ [freq]
                else [freq]).length : ℚ)))
          snapshot := if isConsistent m.readings freq then m.readings ++ [freq] else [freq] }
      else
        { m with
          readings := if isConsistent m.readings freq then m.readings ++ [freq] else [freq]
          frequency := some (round1 freq)
          snapshot := if isConsistent m.readings freq then m.readings ++ [freq]
            else [freq] }) := by
  unfold tick
  simp only [hlock, Bool.false_eq_true, if_false, hf, ite_false, hval]

theorem machineInv_tick (m : Machine) (est : Option ℚ) (validate : Option (ℚ → Bool))
    (h : MachineInv m) : MachineInv (tick m est validate) := by
  obtain ⟨h4, h5, hsnap⟩ := h
  by_cases hl : m.locked = true
  · rw [tick_locked m est validate hl]
    exact ⟨h4, h5, hsnap⟩
  · have hl' : m.locked = false := by simpa using hl
    cases est with
    | none =>
      rw [tick_none]
      exact ⟨h4, h5, hsnap⟩
    | some freq =>
      by_cases hf : freq = 0
      · have : tick m (some freq) validate = m := by simp [tick, hf]
        rw [this]
        exact ⟨h4, h5, hsnap⟩
      · by_cases hv : validRejects validate freq = true
        · have : tick m (some freq) validate = { m with frequency := some (round1 freq) } := by
            simp [tick, hl', hf, hv]
          rw [this]
          exact ⟨h4, h5, hsnap⟩
        · have hv' : validRejects validate freq = false := by simpa using hv
          rw [tick_accepted m freq validate hl' hf hv']
          by_cases hc : isConsistent m.readings freq
          · rw [if_pos hc]
            have hlen1 : (m.readings ++ [freq]).length ≤ 5 := by
              have := h4 hl'
              simp only [List.length_append, List.length_cons, List.length_nil]
              omega
            by_cases h5' : LOCK_COUNT ≤ (m.readings ++ [freq]).length
            · rw [if_pos h5']
              exact ⟨fun hcl => by simp at hcl, hlen1, hlen1⟩
            · rw [if_neg h5']
              have h4' : (m.readings ++ [freq]).length ≤ 4 := by
                simp only [LOCK_COUNT] at h5'
                omega
              exact ⟨fun _ => h4', hlen1, hlen1⟩
          · rw [if_neg hc, if_neg (by simp [LOCK_COUNT])]
            exact ⟨fun _ => by simp, by simp, by simp⟩

theorem machineInv_reachable (m : Machine) (h : Reachable m) : MachineInv m := by
  induction h with
  | init => exact ⟨fun _ => by simp [initialMachine], by simp [initialMachine], by simp [initialMachine]⟩
  | tick m est validate _ ih => exact machineInv_tick m est validate ih
  | stop m _ _ => exact ⟨fun _ => by simp [stop], by simp [stop], by simp [stop]⟩
  | reset m _ _ => exact ⟨fun _ => by simp [reset], by simp [reset], by simp [reset]⟩
  | start m _ _ =>
      exact ⟨fun _ => by simp [startListening], by simp [startListening], by simp [startListening]⟩

/-- **C1.** For every valid accepted frequency estimate `freq` processed in
a tick, the consensus update accepts it as consistent iff the reading
buffer is empty or every existing reading `r` satisfies
`|r - freq| / r < 0.03`; if consistent the estimate is appended to the
buffer, and if inconsistent the buffer is cleared and restarted containing
only the new estimate. -/
theorem consensus_update_spec (m : Machine) (freq : ℚ) (validate : Option (ℚ → Bool))
    (hlock : m.locked = false) (hf : freq ≠ 0)
    (hval : validRejects validate freq = false) :
    (isConsistent m.readings freq = true ↔
        (m.readings = [] ∨ ∀ r ∈ m.readings, |r - freq| / r < 3 / 100)) ∧
      (tick m (some freq) validate).readings =
        (if isConsistent m.readings freq then m.readings ++ [freq] else [freq]) := by
  constructor
  · simp [isConsistent, List.isEmpty_iff, List.all_eq_true, LOCK_THRESHOLD]
  · rw [tick_accepted m freq validate hlock hf hval]
    split <;> (split <;> rfl)

theorem consensus_update_spec_witness :
    (isConsistent [400] 401 = true ↔
        (([400] : List ℚ) = [] ∨ ∀ r ∈ ([400] : List ℚ), |r - 401| / r < 3 / 100)) ∧
      (tick ⟨false, [400], Status.listening, none, [400]⟩ (some 401) none).readings =
        (if isConsistent [400] 401 then ([400] : List ℚ) ++ [401] else [401]) :=
  consensus_update_spec ⟨false, [400], Status.listening, none, [400]⟩ 401 none rfl
    (by norm_num) rfl

/-- **C2.** When appending an accepted reading makes the buffer reach the
lock count of 5, the machine transitions to `locked`, the reported final
frequency is the arithmetic mean of the 5 buffered readings rounded to one
decimal place, and tick processing stops (ticks on a locked machine are
no-ops) until an explicit `reset`, which unlocks and clears the buffer. -/
theorem lock_transition_spec (m : Machine) (freq : ℚ) (validate : Option (ℚ → Bool))
    (hlock : m.locked = false) (hf : freq ≠ 0)
    (hval : validRejects validate freq = false)
    (hcons : isConsistent m.readings freq = true)
    (hlen : m.readings.length = 4) :
    (tick m (some freq) validate).status = Status.locked ∧
      (tick m (some freq) validate).locked = true ∧
      (tick m (some freq) validate).frequency =
        some (round1 ((m.readings ++ [freq]).sum / 5)) ∧
      (tick m (some freq) validate).snapshot = m.readings ++ [freq] ∧
      (∀ m' est v', m'.locked = true → tick m' est v' = m') ∧
      reset.locked = false ∧ reset.readings = [] := by
  have h5 : (m.readings ++ [freq]).length = 5 := by simp [hlen]
  have hifc : (if isConsistent m.readings freq then m.readings ++ [freq] else [freq])
      = m.readings ++ [freq] := if_pos hcons
  have hcond : LOCK_COUNT ≤
      (if isConsistent m.readings freq then m.readings ++ [freq] else [freq]).length := by
    rw [hifc, h5]
    decide
  rw [tick_accepted m freq validate hlock hf hval, if_pos hcond, hifc]
  refine ⟨rfl, rfl, ?_, rfl, tick_locked, rfl, rfl⟩
  rw [h5]
  norm_num

theorem lock_transition_spec_witness :
    (tick ⟨false, [400, 401, 399, 400], Status.listening, none, [400, 401, 399, 400]⟩
        (some 400) none).status = Status.locked ∧
      (tick ⟨false, [400, 401, 399, 400], Status.listening, none, [400, 401, 399, 400]⟩
          (some 400) none).locked = true ∧
      (tick ⟨false, [400, 401, 399, 400], Status.listening, none, [400, 401, 399, 400]⟩
          (some 400) none).frequency =
        some (round1 ((([400, 401, 399, 400] : List ℚ) ++ [400]).sum / 5)) ∧
      (tick ⟨false, [400, 401, 399, 400], Status.listening, none, [400, 401, 399, 400]⟩
          (some 400) none).snapshot = ([400, 401, 399, 400] : List ℚ) ++ [400] ∧
      (∀ m' est v', m'.locked = true → tick m' est v' = m') ∧
      reset.locked = false ∧ reset.readings = [] :=
  lock_transition_spec ⟨false, [400, 401, 399, 400], Status.listening, none,
      [400, 401, 399, 400]⟩ 400 none rfl (by norm_num) rfl
    (by simp [isConsistent, LOCK_THRESHOLD]; norm_num [abs_sub_lt_iff]) rfl

/-- **C4** (amended). For every tick in which the best scanned chunk RMS
— the maximum RMS over the scanned `min(4096, len - off)`-sample chunks,
the code's `bestRms`, which is what the gate at line 86 tests, not the
RMS of the selected 16384-sample window — falls below the minimum-signal
threshold `0.004` (radicands compared, see `rmsGate_iff`), no frequency
estimate is produced and the whole machine state — in particular the
consensus reading buffer — is left unchanged. -/
theorem silence_gate_spec (m : Machine) (buf : List ℚ) (validate : Option (ℚ → Bool))
    (detect : List ℚ → Option ℚ)
    (h : bestMeanSq buf < MIN_SIGNAL_RMS * MIN_SIGNAL_RMS) :
    producedEstimate buf detect = none ∧ fullTick m buf validate detect = m := by
  have hgate : producedEstimate buf detect = none := by
    unfold producedEstimate
    rw [if_neg (not_le.mpr h)]
  refine ⟨hgate, ?_⟩
  unfold fullTick
  rw [hgate]
  unfold tick
  split <;> rfl

theorem silence_gate_spec_witness :
    producedEstimate [1 / 1000] (fun _ => some 300) = none ∧
      fullTick initialMachine [1 / 1000] none (fun _ => some 300) = initialMachine :=
  silence_gate_spec initialMachine [1 / 1000] none (fun _ => some 300)
    (by show (selectScan [1 / 1000]).2 < MIN_SIGNAL_RMS * MIN_SIGNAL_RMS
        norm_num [selectScan, scanOffsets, chunkMeanSq, sliceSumSq, checkLen, MIN_SIGNAL_RMS])

/-- **C6.** A tick whose frequency estimate fails the configured validity
predicate updates only the displayed frequency (rounded to one decimal):
the consensus reading buffer, its published snapshot, the status and the
lock flag are unchanged, so the estimate never contributes to a lock. -/
theorem rejected_estimate_spec (m : Machine) (freq : ℚ) (v : ℚ → Bool)
    (hlock : m.locked = false) (hf : freq ≠ 0) (hrej : v freq = false) :
    (tick m (some freq) (some v)).frequency = some (round1 freq) ∧
      (tick m (some freq) (some v)).readings = m.readings ∧
      (tick m (some freq) (some v)).snapshot = m.snapshot ∧
      (tick m (some freq) (some v)).status = m.status ∧
      (tick m (some freq) (some v)).locked = false := by
  have hv : validRejects (some v) freq = true := by
    simp [validRejects, hrej]
  unfold tick
  simp [hlock, hf, hv]

theorem rejected_estimate_spec_witness :
    (tick ⟨false, [350], Status.listening, none, [350]⟩ (some 400)
        (some fun q => decide (q < 100))).frequency = some (round1 400) ∧
      (tick ⟨false, [350], Status.listening, none, [350]⟩ (some 400)
          (some fun q => decide (q < 100))).readings = [350] ∧
      (tick ⟨false, [350], Status.listening, none, [350]⟩ (some 400)
          (some fun q => decide (q < 100))).snapshot = [350] ∧
      (tick ⟨false, [350], Status.listening, none, [350]⟩ (some 400)
          (some fun q => decide (q < 100))).status = Status.listening ∧
      (tick ⟨false, [350], Status.listening, none, [350]⟩ (some 400)
          (some fun q => decide (q < 100))).locked = false :=
  rejected_estimate_spec ⟨false, [350], Status.listening, none, [350]⟩ 400
    (fun q => decide (q < 100)) rfl (by norm_num) (by norm_num)

/-- **C9.** In every reachable state of the consensus state machine —
across any sequence of ticks (with arbitrary estimates and validators),
locks, stops, starts and resets — the lock reading buffer holds at most 5
readings, and so does every published lock-buffer snapshot. -/
theorem lock_buffer_bounded (m : Machine) (h : Reachable m) :
    m.readings.length ≤ 5 ∧ m.snapshot.length ≤ 5 :=
  ⟨(machineInv_reachable m h).2.1, (machineInv_reachable m h).2.2⟩

theorem lock_buffer_bounded_witness :
    initialMachine.readings.length ≤ 5 ∧ initialMachine.snapshot.length ≤ 5 :=
  lock_buffer_bounded initialMachine Reachable.init

/-! ## Gauge normalisation (`audioAnalysis.ts` lines 11–37) -/

/-- `GAUGE_TO_MM` (`audioAnalysis.ts` lines 11–17): gauge number →
diameter in mm; `none` models JavaScript `undefined` for keys outside the
table (every tabulated value is nonzero, so `some` coincides with JS
truthiness). -/
def GAUGE_TO_MM (n : ℤ) : Option ℚ :=
  if n = 15 then some (145 / 100)
  else if n = 16 then some (130 / 100)
  else if n = 17 then some (120 / 100)
  else if n = 18 then some (110 / 100)
  else if n = 19 then some 1
  else none

/-- `normalizeGaugeMm` (`audioAnalysis.ts` lines 25–37).
`Math.floor` is `Int.floor`; `value !== floored` is `value ≠ ⌊value⌋`. -/
def normalizeGaugeMm (value : ℚ) : ℚ :=
  if value < 3 then value -- already in mm
  else
    match GAUGE_TO_MM ⌊value⌋ with
    | some mm =>
      if value ≠ (⌊value⌋ : ℚ) then
        match GAUGE_TO_MM (⌊value⌋ + 1) with
        | some nextMm => mm + (nextMm - mm) * (value - ⌊value⌋)
        | none => mm
      else mm
    | none => 5 / 4 -- fallback

/-- **C10.** `normalizeGaugeMm` returns its argument unchanged below 3
(already mm); for `15 ≤ v < 19` it returns the tabulated diameter for
`⌊v⌋` linearly interpolated toward the next gauge by the fractional part;
for `v ∈ [19, 20)` the fractional part is ignored and `1.00` mm returned;
and for every other value (`3 ≤ v < 15` or `v ≥ 20`) it returns the fixed
fallback `1.25` mm. -/
theorem normalizeGaugeMm_spec (v : ℚ) :
    (v < 3 → normalizeGaugeMm v = v) ∧
      (15 ≤ v → v < 19 →
        normalizeGaugeMm v =
          (GAUGE_TO_MM ⌊v⌋).getD (5 / 4)
            + ((GAUGE_TO_MM (⌊v⌋ + 1)).getD (5 / 4) - (GAUGE_TO_MM ⌊v⌋).getD (5 / 4))
              * (v - ⌊v⌋)) ∧
      (19 ≤ v → v < 20 → normalizeGaugeMm v = 1) ∧
      ((3 ≤ v ∧ v < 15) ∨ 20 ≤ v → normalizeGaugeMm v = 5 / 4) := by
  refine ⟨?_, ?_, ?_, ?_⟩
  · intro h
    simp [normalizeGaugeMm, h]
  · intro h15 h19
    have h3 : ¬v < 3 := by linarith
    have hfl : (15 : ℤ) ≤ ⌊v⌋ := Int.le_floor.mpr (by exact_mod_cast h15)
    have hfu : ⌊v⌋ < 19 := Int.floor_lt.mpr (by exact_mod_cast h19)
    unfold normalizeGaugeMm
    rw [if_neg h3]
    set n : ℤ := ⌊v⌋ with hn
    interval_cases n <;>
      · simp only [GAUGE_TO_MM, Option.getD]
        norm_num
        by_cases hveq : v = ((n : ℤ) : ℚ) <;> simp_all
  · intro h19 h20
    have h3 : ¬v < 3 := by linarith
    have hfl : (19 : ℤ) ≤ ⌊v⌋ := Int.le_floor.mpr (by exact_mod_cast h19)
    have hfu : ⌊v⌋ < 20 := Int.floor_lt.mpr (by exact_mod_cast h20)
    have hn : ⌊v⌋ = 19 := by omega
    unfold normalizeGaugeMm
    rw [if_neg h3, hn]
    simp only [GAUGE_TO_MM]
    norm_num
  · intro h
    have h3 : ¬v < 3 := by
      rcases h with ⟨h3, _⟩ | h20 <;> [linarith; linarith]
    have hnone : GAUGE_TO_MM ⌊v⌋ = none := by
      rcases h with ⟨h3', h15⟩ | h20
      · have hu : ⌊v⌋ < 15 := Int.floor_lt.mpr (by exact_mod_cast h15)
        have hl : (3 : ℤ) ≤ ⌊v⌋ := Int.le_floor.mpr (by exact_mod_cast h3')
        simp only [GAUGE_TO_MM]
        rw [if_neg (by omega), if_neg (by omega), if_neg (by omega), if_neg (by omega),
          if_neg (by omega)]
      · have hl : (20 : ℤ) ≤ ⌊v⌋ := Int.le_floor.mpr (by exact_mod_cast h20)
        simp only [GAUGE_TO_MM]
        rw [if_neg (by omega), if_neg (by omega), if_neg (by omega), if_neg (by omega),
          if_neg (by omega)]
    unfold normalizeGaugeMm
    rw [if_neg h3, hnone]

theorem normalizeGaugeMm_spec_witness :
    normalizeGaugeMm (33 / 2) =
      (GAUGE_TO_MM ⌊(33 / 2 : ℚ)⌋).getD (5 / 4)
        + ((GAUGE_TO_MM (⌊(33 / 2 : ℚ)⌋ + 1)).getD (5 / 4)
            - (GAUGE_TO_MM ⌊(33 / 2 : ℚ)⌋).getD (5 / 4)) * ((33 / 2 : ℚ) - ⌊(33 / 2 : ℚ)⌋) :=
  (normalizeGaugeMm_spec (33 / 2)).2.1 (by norm_num) (by norm_num)

/-! ## Spectral peak search and parabolic interpolation
(`audioAnalysis.ts` lines 90–145)

`detectFundamentalFrequency` windows the samples, runs the FFT, then
searches the admissible bin range for the peak squared magnitude and
applies parabolic interpolation.  The claims under check concern the
post-FFT part (lines 114–144), so the spectrum is taken as given: the
`re`/`im` arrays (always of length `fftSize` in the code) are modelled as
total maps from bin index to value. -/

/-- `fftSize = 32768` (`audioAnalysis.ts` line 98). -/
def fftSize : ℕ := 32768

/-- Squared magnitude of bin `i`: `re[i]*re[i] + im[i]*im[i]` (line 124). -/
def mag2 (re im : ℕ → ℚ) (i : ℕ) : ℚ := re i * re i + im i * im i

/-- The peak-search loop of lines 114–129: scan bins `minBin..maxBin`
keeping the first bin of strictly maximal squared magnitude, starting from
`maxMag = 0`, `maxIndex = -1` (modelled as `none`); a flat/zero spectrum
therefore yields `none` (line 131). -/
def peakBin (re im : ℕ → ℚ) (sampleRate : ℚ) : Option ℕ :=
  let minBin := (⌊(200 * (fftSize : ℚ)) / sampleRate⌋).toNat
  let maxBin := min (⌈(750 * (fftSize : ℚ)) / sampleRate⌉).toNat (fftSize / 2 - 1)
  (((List.range (maxBin + 1 - minBin)).map (· + minBin)).foldl
    (fun acc i => if acc.1 < mag2 re im i then (mag2 re im i, some i) else acc)
    ((0 : ℚ), (none : Option ℕ))).2

/-- Lines 131–144 of `detectFundamentalFrequency`: magnitudes around the
peak (square roots of the squared magnitudes, `0` at the array edges),
guarded parabolic interpolation
`delta = denom !== 0 ? (0.5 * (prevMag - nextMag)) / denom : 0`, and the
final frequency `((maxIndex + delta) * sampleRate) / fftSize`. -/
noncomputable def detectFromSpectrum (re im : ℕ → ℚ) (sampleRate : ℚ) : Option ℝ :=
  match peakBin re im sampleRate with
  | none => none
  | some maxIndex =>
    let prevMag : ℝ := if 0 < maxIndex then Real.sqrt (mag2 re im (maxIndex - 1)) else 0
    let curMag : ℝ := Real.sqrt (mag2 re im maxIndex)
    let nextMag : ℝ := if maxIndex < fftSize / 2 - 1 then Real.sqrt (mag2 re im (maxIndex + 1)) else 0
    let denom := prevMag - 2 * curMag + nextMag
    let delta : ℝ := if denom ≠ 0 then (1 / 2) * (prevMag - nextMag) / denom else 0
    some (((maxIndex : ℝ) + delta) * (sampleRate : ℚ) / (fftSize : ℝ))

/-- **C5.** Whenever the estimator returns a frequency, that frequency is
`(peakBin + delta) * sampleRate / fftSize` where
`delta = 0.5*(mag[i-1] - mag[i+1]) / (mag[i-1] - 2*mag[i] + mag[i+1])`
over the three magnitudes around the peak bin, and whenever that
denominator is zero the returned frequency is the unadjusted bin frequency
(`delta = 0`); the division is guarded for every input spectrum. -/
theorem parabolic_guard_spec (re im : ℕ → ℚ) (sampleRate : ℚ) (f : ℝ)
    (h : detectFromSpectrum re im sampleRate = some f) :
    ∃ i, peakBin re im sampleRate = some i ∧
      ((if 0 < i then Real.sqrt (mag2 re im (i - 1)) else 0)
          - 2 * Real.sqrt (mag2 re im i)
          + (if i < fftSize / 2 - 1 then Real.sqrt (mag2 re im (i + 1)) else 0) = 0 →
        f = (i : ℝ) * (sampleRate : ℚ) / (fftSize : ℝ)) ∧
      (∀ _hd : (if 0 < i then Real.sqrt (mag2 re im (i - 1)) else 0)
          - 2 * Real.sqrt (mag2 re im i)
          + (if i < fftSize / 2 - 1 then Real.sqrt (mag2 re im (i + 1)) else 0) ≠ 0,
        f = ((i : ℝ) + (1 / 2)
              * ((if 0 < i then Real.sqrt (mag2 re im (i - 1)) else 0)
                  - (if i < fftSize / 2 - 1 then Real.sqrt (mag2 re im (i + 1)) else 0))
              / ((if 0 < i then Real.sqrt (mag2 re im (i - 1)) else 0)
                  - 2 * Real.sqrt (mag2 re im i)
                  + (if i < fftSize / 2 - 1 then Real.sqrt (mag2 re im (i + 1)) else 0)))
            * (sampleRate : ℚ) / (fftSize : ℝ)) := by
  unfold detectFromSpectrum at h
  cases hp : peakBin re im sampleRate with
  | none =>
    rw [hp] at h
    exact absurd h (by simp)
  | some i =>
    rw [hp] at h
    simp only [Option.some.injEq] at h
    refine ⟨i, rfl, ?_, ?_⟩
    · intro hz
      rw [← h]
      rw [if_neg (by simpa using hz)]
      ring
    · intro hd
      rw [← h, if_pos hd]

theorem parabolic_guard_spec_witness :
    ∃ i, peakBin (fun j => if j ≤ 3 then (4 : ℚ) else 0) (fun _ => 0) 3276800 = some i ∧
      ((if 0 < i then
            Real.sqrt (mag2 (fun j => if j ≤ 3 then (4 : ℚ) else 0) (fun _ => 0) (i - 1))
          else 0)
          - 2 * Real.sqrt (mag2 (fun j => if j ≤ 3 then (4 : ℚ) else 0) (fun _ => 0) i)
          + (if i < fftSize / 2 - 1 then
              Real.sqrt (mag2 (fun j => if j ≤ 3 then (4 : ℚ) else 0) (fun _ => 0) (i + 1))
            else 0) = 0 →
        (200 : ℝ) = (i : ℝ) * ((3276800 : ℚ) : ℝ) / (fftSize : ℝ)) ∧
      (∀ _ : (if 0 < i then
            Real.sqrt (mag2 (fun j => if j ≤ 3 then (4 : ℚ) else 0) (fun _ => 0) (i - 1))
          else 0)
          - 2 * Real.sqrt (mag2 (fun j => if j ≤ 3 then (4 : ℚ) else 0) (fun _ => 0) i)
          + (if i < fftSize / 2 - 1 then
              Real.sqrt (mag2 (fun j => if j ≤ 3 then (4 : ℚ) else 0) (fun _ => 0) (i + 1))
            else 0) ≠ 0,
        (200 : ℝ) = ((i : ℝ) + (1 / 2)
              * ((if 0 < i then
                    Real.sqrt (mag2 (fun j => if j ≤ 3 then (4 : ℚ) else 0) (fun _ => 0) (i - 1))
                  else 0)
                  - (if i < fftSize / 2 - 1 then
                      Real.sqrt (mag2 (fun j => if j ≤ 3 then (4 : ℚ) else 0) (fun _ => 0) (i + 1))
                    else 0))
              / ((if 0 < i then
                    Real.sqrt (mag2 (fun j => if j ≤ 3 then (4 : ℚ) else 0) (fun _ => 0) (i - 1))
                  else 0)
                  - 2 * Real.sqrt (mag2 (fun j => if j ≤ 3 then (4 : ℚ) else 0) (fun _ => 0) i)
                  + (if i < fftSize / 2 - 1 then
                      Real.sqrt (mag2 (fun j => if j ≤ 3 then (4 : ℚ) else 0) (fun _ => 0) (i + 1))
                    else 0)))
            * ((3276800 : ℚ) : ℝ) / (fftSize : ℝ)) := by
  have hsqrt16 : Real.sqrt (((16 : ℚ) : ℝ)) = 4 := by
    rw [show (((16 : ℚ)) : ℝ) = (4 : ℝ) ^ 2 by norm_num]
    exact Real.sqrt_sq (by norm_num)
  have hp : peakBin (fun j => if j ≤ 3 then (4 : ℚ) else 0) (fun _ => 0) 3276800 = some 2 := by
    have h1 : ((⌊(200 * (fftSize : ℚ)) / 3276800⌋).toNat) = 2 := by
      have h : ⌊(200 * (fftSize : ℚ)) / 3276800⌋ = 2 := by norm_num [fftSize]
      rw [h]
      rfl
    have h2 : min (⌈(750 * (fftSize : ℚ)) / 3276800⌉).toNat (fftSize / 2 - 1) = 8 := by
      have h : ⌈(750 * (fftSize : ℚ)) / 3276800⌉ = 8 := by
        rw [Int.ceil_eq_iff]
        norm_num [fftSize]
      rw [h]
      rfl
    unfold peakBin
    simp only [h1, h2]
    norm_num [List.range_succ, mag2]
  have hdet : detectFromSpectrum (fun j => if j ≤ 3 then (4 : ℚ) else 0) (fun _ => 0) 3276800
      = some 200 := by
    unfold detectFromSpectrum
    rw [hp]
    have hm1 : mag2 (fun j => if j ≤ 3 then (4 : ℚ) else 0) (fun _ => 0) 1 = 16 := by
      norm_num [mag2]
    have hm2 : mag2 (fun j => if j ≤ 3 then (4 : ℚ) else 0) (fun _ => 0) 2 = 16 := by
      norm_num [mag2]
    have hm3 : mag2 (fun j => if j ≤ 3 then (4 : ℚ) else 0) (fun _ => 0) 3 = 16 := by
      norm_num [mag2]
    simp only [show (2 : ℕ) - 1 = 1 from rfl, show (2 : ℕ) + 1 = 3 from rfl, hm1, hm2, hm3,
      hsqrt16, if_pos (show 0 < 2 by norm_num), if_pos (show 2 < fftSize / 2 - 1 by norm_num [fftSize])]
    rw [if_neg (by norm_num)]
    norm_num [fftSize]
  exact parabolic_guard_spec (fun j => if j ≤ 3 then (4 : ℚ) else 0) (fun _ => 0) 3276800 200 hdet

/-! ## Claim C3: what the window scan actually maximises

The claim says the scan computes RMS over the fixed 16384-sample
sub-window at each candidate offset.  The code (line 70) computes RMS over
`checkLen = Math.min(4096, len - off)` samples — one 4096-sample chunk —
at each offset.  `selectScanClaimed` below renders the claim's selector
for comparison; `window_scan_counterexample` separates the two. -/

/-- Mean square over the fixed-size 16384-sample sub-window starting at
`off` — the candidate block as the CLAIM describes it (this definition
follows the claim's words, not the source). -/
def windowMeanSq (buf : List ℚ) (off : ℕ) : ℚ :=
  sliceSumSq buf off (min 16384 (buf.length - off)) / ((min 16384 (buf.length - off) : ℕ) : ℚ)

/-- The selector as the claim describes it: the same backward scan and
strict-improvement fold, but ranking candidates by the RMS of the whole
16384-sample sub-window (this definition follows the claim's words, not
the source). -/
def selectScanClaimed (buf : List ℚ) : ℕ × ℚ :=
  (scanOffsets buf.length).foldl
    (fun best off =>
      let m := windowMeanSq buf off
      if best.2 < m then (off, m) else best)
    (buf.length - 16384, 0)

/-- The strict-improvement fold of the scan, abstracted over the ranking
function. -/
def bestFold (g : ℕ → ℚ) (l : List ℕ) (b : ℕ × ℚ) : ℕ × ℚ :=
  l.foldl (fun best off => if best.2 < g off then (off, g off) else best) b

theorem bestFold_cons (g : ℕ → ℚ) (o : ℕ) (t : List ℕ) (b : ℕ × ℚ) :
    bestFold g (o :: t) b = bestFold g t (if b.2 < g o then (o, g o) else b) := rfl

theorem chunkMeanSq_nonneg (buf : List ℚ) (off : ℕ) : 0 ≤ chunkMeanSq buf off := by
  unfold chunkMeanSq sliceSumSq
  apply div_nonneg
  · apply List.sum_nonneg
    intro x hx
    simp only [List.mem_map] at hx
    obtain ⟨y, _, rfl⟩ := hx
    exact mul_self_nonneg y
  · positivity

/-- Behaviour of the strict-improvement fold on a strictly decreasing
candidate list: the result carries the rank of its offset, the offset is
the initial one or a scanned one, the rank weakly dominates the initial
value and every scanned candidate, the offset moved only on strict
improvement, every candidate tying the final rank lies at or before the
final offset, and offsets never increase. -/
theorem bestFold_spec (g : ℕ → ℚ) (l : List ℕ) (b : ℕ × ℚ) (hb : b.2 = g b.1)
    (hp : List.Pairwise (fun a c => c < a) (b.1 :: l)) :
    (bestFold g l b).2 = g (bestFold g l b).1 ∧
      ((bestFold g l b).1 = b.1 ∨ (bestFold g l b).1 ∈ l) ∧
      b.2 ≤ (bestFold g l b).2 ∧
      (∀ o ∈ l, g o ≤ (bestFold g l b).2) ∧
      ((bestFold g l b).1 = b.1 ∨ b.2 < (bestFold g l b).2) ∧
      (∀ o ∈ l, g o = (bestFold g l b).2 → o ≤ (bestFold g l b).1) ∧
      (bestFold g l b).1 ≤ b.1 := by
  induction l generalizing b with
  | nil =>
    refine ⟨hb, Or.inl rfl, le_refl _, ?_, Or.inl rfl, ?_, le_refl _⟩ <;> simp [bestFold]
  | cons o t ih =>
    have hbo : o < b.1 := (List.pairwise_cons.mp hp).1 o (List.mem_cons_self o t)
    have hpt : List.Pairwise (fun a c => c < a) (o :: t) := (List.pairwise_cons.mp hp).2
    have hbt : List.Pairwise (fun a c => c < a) (b.1 :: t) := by
      refine hp.sublist ?_
      exact List.Sublist.cons₂ b.1 (List.sublist_cons_self o t)
    rw [show bestFold g (o :: t) b
        = bestFold g t (if b.2 < g o then (o, g o) else b) from rfl]
    by_cases hlt : b.2 < g o
    · rw [if_pos hlt]
      obtain ⟨hr1, hr2, hr3, hr4, hr5, hr6, hr7⟩ := ih (o, g o) rfl hpt
      refine ⟨hr1, ?_, ?_, ?_, ?_, ?_, ?_⟩
      · rcases hr2 with h | h
        · exact Or.inr (h ▸ List.mem_cons_self o t)
        · exact Or.inr (List.mem_cons_of_mem o h)
      · exact le_of_lt (lt_of_lt_of_le hlt hr3)
      · intro x hx
        rcases List.mem_cons.mp hx with rfl | h
        · exact hr3
        · exact hr4 x h
      · exact Or.inr (lt_of_lt_of_le hlt hr3)
      · intro x hx he
        rcases List.mem_cons.mp hx with rfl | h
        · rcases hr5 with h1 | h1
          · rw [h1]
          · exact absurd he (ne_of_lt h1)
        · exact hr6 x h he
      · exact le_trans hr7 (le_of_lt hbo)
    · rw [if_neg hlt]
      obtain ⟨hr1, hr2, hr3, hr4, hr5, hr6, hr7⟩ := ih b hb hbt
      have hgo : g o ≤ b.2 := not_lt.mp hlt
      refine ⟨hr1, ?_, hr3, ?_, hr5, ?_, hr7⟩
      · rcases hr2 with h | h
        · exact Or.inl h
        · exact Or.inr (List.mem_cons_of_mem o h)
      · intro x hx
        rcases List.mem_cons.mp hx with rfl | h
        · exact le_trans hgo hr3
        · exact hr4 x h
      · intro x hx he
        rcases List.mem_cons.mp hx with rfl | h
        · have hb2 : b.2 = (bestFold g t b).2 := le_antisymm hr3 (he ▸ hgo)
          rcases hr5 with h1 | h1
          · rw [h1]
            exact le_of_lt hbo
          · exact absurd hb2 (ne_of_lt h1)
        · exact hr6 x h he

/-- The scan offsets are strictly decreasing (the loop walks from the
buffer tail back to the start). -/
theorem scanOffsets_pairwise (len : ℕ) :
    List.Pairwise (fun a c => c < a) (scanOffsets len) := by
  unfold scanOffsets
  rw [List.pairwise_map]
  refine (List.pairwise_lt_range _).imp_of_mem ?_
  intro a b ha hb hab
  rw [List.mem_range] at ha hb
  omega

/-- The scan starts at offset `len - 16384`. -/
theorem scanOffsets_eq_cons (len : ℕ) :
    scanOffsets len = (len - 16384) ::
      (List.range ((len - 16384) / 4096)).map
        (fun k => (len - 16384) - 4096 * (k + 1)) := by
  unfold scanOffsets
  rw [List.range_succ_eq_map, List.map_cons, List.map_map]
  refine congrArg₂ List.cons (by omega) ?_
  rfl

/-- **C3** (amended). The signal window selector scans candidate offsets
at stride 4096 from `len - 16384` backward to the start, ranks each
candidate by the RMS of the 4096-sample chunk at that offset (`checkLen =
min(4096, len - off)` samples — not the full 16384-sample sub-window),
keeps the offset of highest chunk RMS, and on ties favours the most
recent (highest-offset) candidate because it only replaces on strict
improvement.  (Radicands are compared instead of square roots, see
`rmsCompare_iff`.) -/
theorem window_scan_spec (buf : List ℚ) :
    (selectScan buf).1 ∈ scanOffsets buf.length ∧
      (selectScan buf).2 = chunkMeanSq buf (selectScan buf).1 ∧
      (∀ o ∈ scanOffsets buf.length, chunkMeanSq buf o ≤ (selectScan buf).2) ∧
      (∀ o ∈ scanOffsets buf.length,
        chunkMeanSq buf o = chunkMeanSq buf (selectScan buf).1 → o ≤ (selectScan buf).1) := by
  obtain ⟨s0, hs0⟩ : ∃ s0, buf.length - 16384 = s0 := ⟨_, rfl⟩
  obtain ⟨rest, hcons⟩ : ∃ rest, scanOffsets buf.length = s0 :: rest :=
    ⟨(List.range (s0 / 4096)).map (fun k => s0 - 4096 * (k + 1)), by
      rw [← hs0]
      exact scanOffsets_eq_cons buf.length⟩
  have hpair : List.Pairwise (fun a c => c < a) (s0 :: rest) := by
    rw [← hcons]
    exact scanOffsets_pairwise buf.length
  have hsel : selectScan buf = bestFold (chunkMeanSq buf) (s0 :: rest) (s0, 0) := by
    rw [show selectScan buf
        = bestFold (chunkMeanSq buf) (scanOffsets buf.length) (buf.length - 16384, 0) from rfl,
      hcons, hs0]
  have harg : (if (s0, (0 : ℚ)).2 < chunkMeanSq buf s0 then (s0, chunkMeanSq buf s0)
      else (s0, (0 : ℚ))) = (s0, chunkMeanSq buf s0) := by
    by_cases h0 : (s0, (0 : ℚ)).2 < chunkMeanSq buf s0
    · rw [if_pos h0]
    · rw [if_neg h0]
      have hz : chunkMeanSq buf s0 = 0 :=
        le_antisymm (by simpa using not_lt.mp h0) (chunkMeanSq_nonneg buf s0)
      rw [hz]
  have hfin : selectScan buf = bestFold (chunkMeanSq buf) rest (s0, chunkMeanSq buf s0) := by
    rw [hsel, bestFold_cons, harg]
  obtain ⟨hr1, hr2, hr3, hr4, hr5, hr6, hr7⟩ :=
    bestFold_spec (chunkMeanSq buf) rest (s0, chunkMeanSq buf s0) rfl hpair
  rw [hfin, hcons]
  refine ⟨?_, hr1, ?_, ?_⟩
  · rcases hr2 with h | h
    · rw [h]
      exact List.mem_cons_self _ _
    · exact List.mem_cons_of_mem _ h
  · intro o ho
    rcases List.mem_cons.mp ho with rfl | h
    · exact hr3
    · exact hr4 o h
  · intro o ho he
    rw [← hr1] at he
    rcases List.mem_cons.mp ho with rfl | h
    · rcases hr5 with h1 | h1
      · rw [h1]
      · exact absurd he (ne_of_lt (by simpa using h1))
    · exact hr6 o h he

theorem window_scan_spec_witness :
    (selectScan [1, 2]).1 ∈ scanOffsets ([1, 2] : List ℚ).length ∧
      chunkMeanSq [1, 2] 0 ≤ (selectScan [1, 2]).2 :=
  ⟨(window_scan_spec [1, 2]).1,
    (window_scan_spec [1, 2]).2.2.1 0 (by simp [scanOffsets])⟩

/-! ### The separating buffer for claim C3

20480 samples: 4096 of amplitude 1, then 4096 of amplitude 2, then 12288
zeros.  The scan visits offsets `[4096, 0]`.  The 4096-sample chunk at
offset 4096 (all amplitude 2) is the loudest chunk, so the code selects
offset 4096; but the 16384-sample sub-window at offset 0 (amplitudes 1
and 2, then zeros) has the higher window RMS. -/

def scanExampleBuf : List ℚ :=
  List.replicate 4096 1 ++ List.replicate 4096 2 ++ List.replicate 12288 0

theorem scanExampleBuf_length : scanExampleBuf.length = 20480 := by
  rw [scanExampleBuf]
  simp only [List.length_append, List.length_replicate]

theorem scanExample_sumSq_a : sliceSumSq scanExampleBuf 4096 4096 = 16384 := by
  rw [sliceSumSq, scanExampleBuf]
  simp only [List.drop_append_eq_append_drop, List.take_append_eq_append_take,
    List.drop_replicate, List.take_replicate, List.length_replicate, List.length_append,
    List.map_append, List.map_replicate, List.sum_append, List.sum_replicate, nsmul_eq_mul]
  norm_num

theorem scanExample_sumSq_b : sliceSumSq scanExampleBuf 0 4096 = 4096 := by
  rw [sliceSumSq, scanExampleBuf]
  simp only [List.drop_append_eq_append_drop, List.take_append_eq_append_take,
    List.drop_replicate, List.take_replicate, List.length_replicate, List.length_append,
    List.map_append, List.map_replicate, List.sum_append, List.sum_replicate, nsmul_eq_mul]
  norm_num

theorem scanExample_sumSq_c : sliceSumSq scanExampleBuf 4096 16384 = 16384 := by
  rw [sliceSumSq, scanExampleBuf]
  simp only [List.drop_append_eq_append_drop, List.take_append_eq_append_take,
    List.drop_replicate, List.take_replicate, List.length_replicate, List.length_append,
    List.map_append, List.map_replicate, List.sum_append, List.sum_replicate, nsmul_eq_mul]
  norm_num

theorem scanExample_sumSq_d : sliceSumSq scanExampleBuf 0 16384 = 20480 := by
  rw [sliceSumSq, scanExampleBuf]
  simp only [List.drop_append_eq_append_drop, List.take_append_eq_append_take,
    List.drop_replicate, List.take_replicate, List.length_replicate, List.length_append,
    List.map_append, List.map_replicate, List.sum_append, List.sum_replicate, nsmul_eq_mul]
  norm_num

theorem scanExample_chunk_4096 : chunkMeanSq scanExampleBuf 4096 = 4 := by
  rw [chunkMeanSq, scanExampleBuf_length,
    show checkLen 20480 4096 = 4096 from by norm_num [checkLen], scanExample_sumSq_a]
  norm_num

theorem scanExample_chunk_0 : chunkMeanSq scanExampleBuf 0 = 1 := by
  rw [chunkMeanSq, scanExampleBuf_length,
    show checkLen 20480 0 = 4096 from by norm_num [checkLen], scanExample_sumSq_b]
  norm_num

theorem scanExample_window_4096 : windowMeanSq scanExampleBuf 4096 = 1 := by
  rw [windowMeanSq, scanExampleBuf_length,
    show min 16384 (20480 - 4096) = 16384 from by norm_num, scanExample_sumSq_c]
  norm_num

theorem scanExample_window_0 : windowMeanSq scanExampleBuf 0 = 5 / 4 := by
  rw [windowMeanSq, scanExampleBuf_length,
    show min 16384 (20480 - 0) = 16384 from by norm_num, scanExample_sumSq_d]
  norm_num

theorem scanOffsets_20480 : scanOffsets 20480 = [4096, 0] := by
  rw [scanOffsets]
  norm_num [List.range_succ]

theorem scanExample_selectScan : selectScan scanExampleBuf = (4096, 4) := by
  rw [selectScan, scanExampleBuf_length, scanOffsets_20480]
  norm_num [List.foldl_cons, List.foldl_nil, scanExample_chunk_4096, scanExample_chunk_0]

theorem scanExample_selectScanClaimed : selectScanClaimed scanExampleBuf = (0, 5 / 4) := by
  rw [selectScanClaimed, scanExampleBuf_length, scanOffsets_20480]
  norm_num [List.foldl_cons, List.foldl_nil, scanExample_window_4096, scanExample_window_0]

/-- **C3** (counterexample).  On `scanExampleBuf` the code's scan — which
ranks candidates by the RMS of `min(4096, len - off)` samples — selects
offset 4096, while the claim's selector — ranking by RMS of the full
16384-sample sub-window — selects offset 0; the 16384-window RMS at
offset 0 strictly exceeds the one at the code's selected offset, so the
code does not keep the offset of highest 16384-window RMS as the claim
states. -/
theorem window_scan_counterexample :
    (selectScan scanExampleBuf).1 = 4096 ∧
      (selectScanClaimed scanExampleBuf).1 = 0 ∧
      windowMeanSq scanExampleBuf (selectScan scanExampleBuf).1
        < windowMeanSq scanExampleBuf 0 := by
  have h1 : (selectScan scanExampleBuf).1 = 4096 := by rw [scanExample_selectScan]
  have h2 : (selectScanClaimed scanExampleBuf).1 = 0 := by rw [scanExample_selectScanClaimed]
  refine ⟨h1, h2, ?_⟩
  rw [h1, scanExample_window_4096, scanExample_window_0]
  norm_num

/-! ## String reference database (`stringDatabase.ts`)

`STRING_DATABASE` is the full measured linear-density table (42 strings,
densities in g/m); `lookupLinearDensity` is its lookup
(`stringDatabase.ts` lines 324–352). -/

structure GaugeEntry where
  mm : ℚ
  linearDensityGM : ℚ
deriving DecidableEq, Repr

structure StringModel where
  brand : String
  name : String
  material : String
  gauges : List GaugeEntry
deriving DecidableEq, Repr

def STRING_DATABASE : List StringModel := [
  ⟨"Luxilon", "ALU Power", "Polyester", [⟨125 / 100, 153 / 100⟩, ⟨130 / 100, 166 / 100⟩]⟩,
  ⟨"Luxilon", "ALU Power Rough", "Polyester", [⟨125 / 100, 154 / 100⟩]⟩,
  ⟨"Luxilon", "4G", "Polyester", [⟨125 / 100, 151 / 100⟩, ⟨130 / 100, 165 / 100⟩]⟩,
  ⟨"Luxilon", "4G Rough", "Polyester", [⟨125 / 100, 152 / 100⟩]⟩,
  ⟨"Luxilon", "Element", "Polyester", [⟨125 / 100, 146 / 100⟩, ⟨130 / 100, 158 / 100⟩]⟩,
  ⟨"Babolat", "RPM Blast", "Polyester", [⟨120 / 100, 136 / 100⟩, ⟨125 / 100, 148 / 100⟩, ⟨130 / 100, 163 / 100⟩, ⟨135 / 100, 174 / 100⟩]⟩,
  ⟨"Babolat", "RPM Blast Rough", "Polyester", [⟨125 / 100, 150 / 100⟩, ⟨130 / 100, 164 / 100⟩]⟩,
  ⟨"Babolat", "RPM Hurricane", "Polyester", [⟨125 / 100, 152 / 100⟩, ⟨130 / 100, 167 / 100⟩]⟩,
  ⟨"Solinco", "Hyper-G", "Polyester", [⟨115 / 100, 122 / 100⟩, ⟨120 / 100, 130 / 100⟩, ⟨125 / 100, 152 / 100⟩, ⟨130 / 100, 161 / 100⟩]⟩,
  ⟨"Solinco", "Hyper-G Soft", "Polyester", [⟨120 / 100, 128 / 100⟩, ⟨125 / 100, 149 / 100⟩]⟩,
  ⟨"Solinco", "Tour Bite", "Polyester", [⟨120 / 100, 133 / 100⟩, ⟨125 / 100, 150 / 100⟩, ⟨130 / 100, 163 / 100⟩]⟩,
  ⟨"Solinco", "Confidential", "Polyester", [⟨120 / 100, 131 / 100⟩, ⟨125 / 100, 148 / 100⟩]⟩,
  ⟨"Head", "Lynx", "Polyester", [⟨125 / 100, 148 / 100⟩, ⟨130 / 100, 162 / 100⟩]⟩,
  ⟨"Head", "Lynx Tour", "Polyester", [⟨125 / 100, 149 / 100⟩, ⟨130 / 100, 163 / 100⟩]⟩,
  ⟨"Head", "Hawk", "Polyester", [⟨125 / 100, 150 / 100⟩, ⟨130 / 100, 164 / 100⟩]⟩,
  ⟨"Yonex", "Poly Tour Pro", "Polyester", [⟨120 / 100, 135 / 100⟩, ⟨125 / 100, 150 / 100⟩, ⟨130 / 100, 164 / 100⟩]⟩,
  ⟨"Yonex", "Poly Tour Strike", "Polyester", [⟨125 / 100, 149 / 100⟩, ⟨130 / 100, 163 / 100⟩]⟩,
  ⟨"Yonex", "Poly Tour Rev", "Polyester", [⟨120 / 100, 134 / 100⟩, ⟨125 / 100, 148 / 100⟩]⟩,
  ⟨"Tecnifibre", "Razor Code", "Polyester", [⟨125 / 100, 147 / 100⟩, ⟨130 / 100, 161 / 100⟩]⟩,
  ⟨"Tecnifibre", "Black Code", "Polyester", [⟨124 / 100, 146 / 100⟩, ⟨128 / 100, 156 / 100⟩]⟩,
  ⟨"Volkl", "Cyclone", "Polyester", [⟨125 / 100, 148 / 100⟩, ⟨130 / 100, 162 / 100⟩]⟩,
  ⟨"Wilson", "Revolve", "Polyester", [⟨125 / 100, 148 / 100⟩, ⟨130 / 100, 163 / 100⟩]⟩,
  ⟨"Wilson", "Luxilon Ace", "Polyester", [⟨112 / 100, 120 / 100⟩]⟩,
  ⟨"Wilson", "NXT", "Multifilament", [⟨124 / 100, 130 / 100⟩, ⟨130 / 100, 136 / 100⟩]⟩,
  ⟨"Tecnifibre", "X-One Biphase", "Multifilament", [⟨124 / 100, 130 / 100⟩, ⟨130 / 100, 134 / 100⟩]⟩,
  ⟨"Tecnifibre", "NRG2", "Multifilament", [⟨124 / 100, 128 / 100⟩, ⟨132 / 100, 137 / 100⟩]⟩,
  ⟨"Head", "Velocity MLT", "Multifilament", [⟨125 / 100, 127 / 100⟩, ⟨130 / 100, 135 / 100⟩]⟩,
  ⟨"Babolat", "VS Touch", "NaturalGut", [⟨125 / 100, 135 / 100⟩, ⟨130 / 100, 142 / 100⟩]⟩,
  ⟨"Wilson", "Natural Gut", "NaturalGut", [⟨125 / 100, 133 / 100⟩, ⟨130 / 100, 140 / 100⟩]⟩,
  ⟨"Luxilon", "Natural Gut", "NaturalGut", [⟨125 / 100, 134 / 100⟩, ⟨130 / 100, 141 / 100⟩]⟩,
  ⟨"Prince", "Synthetic Gut", "Nylon", [⟨125 / 100, 128 / 100⟩, ⟨130 / 100, 137 / 100⟩]⟩,
  ⟨"Wilson", "Synthetic Gut Power", "Nylon", [⟨125 / 100, 127 / 100⟩, ⟨130 / 100, 136 / 100⟩]⟩,
  ⟨"Head", "Synthetic Gut PPS", "Nylon", [⟨125 / 100, 129 / 100⟩, ⟨130 / 100, 138 / 100⟩]⟩,
  ⟨"Toroline", "O-TORO", "Polyester", [⟨123 / 100, 164 / 100⟩]⟩,
  ⟨"Toroline", "O-TORO Tour", "Polyester", [⟨120 / 100, 156 / 100⟩, ⟨123 / 100, 164 / 100⟩]⟩,
  ⟨"Toroline", "O-TORO Spin", "Polyester", [⟨123 / 100, 164 / 100⟩]⟩,
  ⟨"Toroline", "O-TORO Snap", "Polyester", [⟨123 / 100, 164 / 100⟩]⟩,
  ⟨"Toroline", "O-TORO Octa", "Polyester", [⟨123 / 100, 164 / 100⟩]⟩,
  ⟨"Toroline", "Caviar", "Polyester", [⟨116 / 100, 146 / 100⟩, ⟨120 / 100, 156 / 100⟩, ⟨124 / 100, 167 / 100⟩]⟩,
  ⟨"Toroline", "Ether", "Polyester", [⟨120 / 100, 156 / 100⟩]⟩,
  ⟨"Toroline", "Wasabi", "Polyester", [⟨123 / 100, 164 / 100⟩]⟩,
  ⟨"Toroline", "Zero", "Polyester", [⟨123 / 100, 164 / 100⟩, ⟨128 / 100, 177 / 100⟩]⟩
]

/-- Sorting key of `[...entry.gauges].sort((a, b) => a.mm - b.mm)`. -/
def gaugeLE (a b : GaugeEntry) : Prop := a.mm ≤ b.mm

instance : DecidableRel gaugeLE := fun a b => inferInstanceAs (Decidable (a.mm ≤ b.mm))

instance : IsTotal GaugeEntry gaugeLE := ⟨fun a b => le_total a.mm b.mm⟩

instance : IsTrans GaugeEntry gaugeLE := ⟨fun _ _ _ => le_trans⟩

/-- The bracket-scan loop of `lookupLinearDensity` (lines 343–349): find
the first adjacent sorted pair enclosing the gauge and interpolate. -/
def findBracket (gaugeMm : ℚ) : List GaugeEntry → Option ℚ
  | a :: b :: rest =>
    if a.mm ≤ gaugeMm ∧ gaugeMm ≤ b.mm then
      some ((a.linearDensityGM
        + (gaugeMm - a.mm) / (b.mm - a.mm) * (b.linearDensityGM - a.linearDensityGM)) / 1000)
    else findBracket gaugeMm (b :: rest)
  | _ => none

/-- `lookupLinearDensity` (`stringDatabase.ts` lines 324–352).  The
"exact" gauge match is `Math.abs(g.mm - gaugeMm) < 0.005`; densities are
converted g/m → kg/m by dividing by 1000.  An entry with an empty gauge
list would make the JS code fault on `sorted[0]`; no database entry is
empty, and the model returns `none` there. -/
def lookupLinearDensity (brand name : String) (gaugeMm : ℚ) : Option ℚ :=
  match STRING_DATABASE.find? (fun s => s.brand == brand && s.name == name) with
  | none => none
  | some entry =>
    match entry.gauges.find? (fun g => decide (|g.mm - gaugeMm| < 5 / 1000)) with
    | some g => some (g.linearDensityGM / 1000)
    | none =>
      match List.insertionSort gaugeLE entry.gauges with
      | [] => none
      | g0 :: gs =>
        if gaugeMm < g0.mm then some (g0.linearDensityGM / 1000)
        else if ((g0 :: gs).getLast (List.cons_ne_nil g0 gs)).mm < gaugeMm then
          some (((g0 :: gs).getLast (List.cons_ne_nil g0 gs)).linearDensityGM / 1000)
        else findBracket gaugeMm (g0 :: gs)

theorem findBracket_spec (gaugeMm : ℚ) :
    ∀ (t : List GaugeEntry) (a : GaugeEntry),
      (∀ g ∈ a :: t, ¬|g.mm - gaugeMm| < 5 / 1000) →
      a.mm ≤ gaugeMm →
      (∃ b ∈ a :: t, gaugeMm ≤ b.mm) →
      ∃ x y l1 l2, a :: t = l1 ++ x :: y :: l2 ∧ x.mm ≤ gaugeMm ∧ gaugeMm ≤ y.mm ∧
        findBracket gaugeMm (a :: t) = some ((x.linearDensityGM
          + (gaugeMm - x.mm) / (y.mm - x.mm)
            * (y.linearDensityGM - x.linearDensityGM)) / 1000) := by
  intro t
  induction t with
  | nil =>
    intro a hnear ha hex
    obtain ⟨b, hb, hgb⟩ := hex
    rw [List.mem_singleton] at hb
    subst hb
    exact absurd (show |b.mm - gaugeMm| < 5 / 1000 by
      rw [abs_lt]; constructor <;> linarith) (hnear b (List.mem_singleton_self b))
  | cons b t' ih =>
    intro a hnear ha hex
    by_cases hbr : a.mm ≤ gaugeMm ∧ gaugeMm ≤ b.mm
    · refine ⟨a, b, [], t', rfl, hbr.1, hbr.2, ?_⟩
      have hdef : findBracket gaugeMm (a :: b :: t')
          = if a.mm ≤ gaugeMm ∧ gaugeMm ≤ b.mm then
              some ((a.linearDensityGM
                + (gaugeMm - a.mm) / (b.mm - a.mm)
                  * (b.linearDensityGM - a.linearDensityGM)) / 1000)
            else findBracket gaugeMm (b :: t') := rfl
      rw [hdef, if_pos hbr]
    · have hb : b.mm < gaugeMm := by
        rcases not_and_or.mp hbr with h | h
        · exact absurd ha h
        · exact not_le.mp h
      have hex' : ∃ c ∈ b :: t', gaugeMm ≤ c.mm := by
        obtain ⟨c, hc, hgc⟩ := hex
        rcases List.mem_cons.mp hc with rfl | hc'
        · exact absurd (show |c.mm - gaugeMm| < 5 / 1000 by
            rw [abs_lt]; constructor <;> linarith)
            (hnear c (List.mem_cons_self _ _))
        · exact ⟨c, hc', hgc⟩
      have hnear' : ∀ g ∈ b :: t', ¬|g.mm - gaugeMm| < 5 / 1000 :=
        fun g hg => hnear g (List.mem_cons_of_mem a hg)
      obtain ⟨x, y, l1, l2, heq, hx, hy, hres⟩ := ih b hnear' (le_of_lt hb) hex'
      refine ⟨x, y, a :: l1, l2, by rw [List.cons_append, heq], hx, hy, ?_⟩
      have hdef : findBracket gaugeMm (a :: b :: t')
          = if a.mm ≤ gaugeMm ∧ gaugeMm ≤ b.mm then
              some ((a.linearDensityGM
                + (gaugeMm - a.mm) / (b.mm - a.mm)
                  * (b.linearDensityGM - a.linearDensityGM)) / 1000)
            else findBracket gaugeMm (b :: t') := rfl
      rw [hdef, if_neg hbr]
      exact hres

theorem sorted_head_min (g0 : GaugeEntry) (gs : List GaugeEntry)
    (hs : List.Sorted gaugeLE (g0 :: gs)) : ∀ x ∈ g0 :: gs, g0.mm ≤ x.mm := by
  intro x hx
  rcases List.mem_cons.mp hx with rfl | hx'
  · exact le_refl _
  · exact (List.sorted_cons.mp hs).1 x hx'

theorem sorted_getLast_max :
    ∀ (l : List GaugeEntry) (hne : l ≠ []),
      List.Sorted gaugeLE l → ∀ x ∈ l, x.mm ≤ (l.getLast hne).mm := by
  intro l
  induction l with
  | nil => intro hne; exact absurd rfl hne
  | cons a t ih =>
    intro hne hs x hx
    cases t with
    | nil =>
      rw [List.mem_singleton] at hx
      subst hx
      exact le_refl _
    | cons b t' =>
      rcases List.mem_cons.mp hx with rfl | hx'
      · have hmem := List.getLast_mem (show (b :: t') ≠ [] from List.cons_ne_nil _ _)
        have hrel := (List.sorted_cons.mp hs).1 _ hmem
        rw [List.getLast_cons (List.cons_ne_nil _ _)]
        exact hrel
      · have := ih (List.cons_ne_nil _ _) (List.sorted_cons.mp hs).2 x hx'
        rw [List.getLast_cons (List.cons_ne_nil _ _)]
        exact this

/-- **C8** (amended). For every string present in the reference table and
every queried gauge, the density lookup returns a tabulated value (in
kg/m) whenever the queried gauge is within 0.005 mm of a tabulated gauge
— the code's "exact match"; when no such near-match exists it clamps to
the nearest tabulated endpoint below/above the tabulated range, and
linearly interpolates between a bracketing adjacent pair of the sorted
tabulated gauges inside the range; for a string present in the table the
lookup never returns `none`, so the solid-cylinder estimate is used only
when the string is not in the table at all. -/
theorem density_lookup_spec (brand name : String) (gaugeMm : ℚ) (entry : StringModel)
    (hfind : STRING_DATABASE.find? (fun s => s.brand == brand && s.name == name) = some entry)
    (hne : entry.gauges ≠ []) :
    ((∃ g ∈ entry.gauges, |g.mm - gaugeMm| < 5 / 1000) →
        ∃ g ∈ entry.gauges, |g.mm - gaugeMm| < 5 / 1000 ∧
          lookupLinearDensity brand name gaugeMm = some (g.linearDensityGM / 1000)) ∧
      ((∀ g ∈ entry.gauges, ¬|g.mm - gaugeMm| < 5 / 1000) →
        (∀ g ∈ entry.gauges, gaugeMm < g.mm) →
        ∃ g ∈ entry.gauges, (∀ g' ∈ entry.gauges, g.mm ≤ g'.mm) ∧
          lookupLinearDensity brand name gaugeMm = some (g.linearDensityGM / 1000)) ∧
      ((∀ g ∈ entry.gauges, ¬|g.mm - gaugeMm| < 5 / 1000) →
        (∀ g ∈ entry.gauges, g.mm < gaugeMm) →
        ∃ g ∈ entry.gauges, (∀ g' ∈ entry.gauges, g'.mm ≤ g.mm) ∧
          lookupLinearDensity brand name gaugeMm = some (g.linearDensityGM / 1000)) ∧
      ((∀ g ∈ entry.gauges, ¬|g.mm - gaugeMm| < 5 / 1000) →
        (∃ glo ∈ entry.gauges, glo.mm ≤ gaugeMm) →
        (∃ ghi ∈ entry.gauges, gaugeMm ≤ ghi.mm) →
        ∃ x y l1 l2, x ∈ entry.gauges ∧ y ∈ entry.gauges ∧
          List.insertionSort gaugeLE entry.gauges = l1 ++ x :: y :: l2 ∧
          x.mm ≤ gaugeMm ∧ gaugeMm ≤ y.mm ∧
          lookupLinearDensity brand name gaugeMm = some ((x.linearDensityGM
            + (gaugeMm - x.mm) / (y.mm - x.mm)
              * (y.linearDensityGM - x.linearDensityGM)) / 1000)) ∧
      lookupLinearDensity brand name gaugeMm ≠ none := by
  have hperm := List.perm_insertionSort gaugeLE entry.gauges
  have hsorted := List.sorted_insertionSort gaugeLE entry.gauges
  have hlook : lookupLinearDensity brand name gaugeMm =
      (match entry.gauges.find? (fun g => decide (|g.mm - gaugeMm| < 5 / 1000)) with
      | some g => some (g.linearDensityGM / 1000)
      | none =>
        match List.insertionSort gaugeLE entry.gauges with
        | [] => none
        | g0 :: gs =>
          if gaugeMm < g0.mm then some (g0.linearDensityGM / 1000)
          else if ((g0 :: gs).getLast (List.cons_ne_nil g0 gs)).mm < gaugeMm then
            some (((g0 :: gs).getLast (List.cons_ne_nil g0 gs)).linearDensityGM / 1000)
          else findBracket gaugeMm (g0 :: gs)) := by
    unfold lookupLinearDensity
    rw [hfind]
  obtain ⟨g0, gs, hsrt⟩ : ∃ g0 gs, List.insertionSort gaugeLE entry.gauges = g0 :: gs := by
    cases h : List.insertionSort gaugeLE entry.gauges with
    | nil =>
      rw [h] at hperm
      exact absurd hperm.symm.eq_nil hne
    | cons a b => exact ⟨a, b, rfl⟩
  have hmemsort : ∀ x, x ∈ g0 :: gs ↔ x ∈ entry.gauges := by
    intro x
    rw [← hsrt]
    exact hperm.mem_iff
  have hsorted' : List.Sorted gaugeLE (g0 :: gs) := hsrt ▸ hsorted
  have hg0min : ∀ x ∈ g0 :: gs, g0.mm ≤ x.mm := sorted_head_min g0 gs hsorted'
  have hlastmax : ∀ x ∈ g0 :: gs, x.mm ≤ ((g0 :: gs).getLast (List.cons_ne_nil g0 gs)).mm :=
    sorted_getLast_max (g0 :: gs) (List.cons_ne_nil g0 gs) hsorted'
  have hlastmem : (g0 :: gs).getLast (List.cons_ne_nil g0 gs) ∈ g0 :: gs :=
    List.getLast_mem (List.cons_ne_nil g0 gs)
  refine ⟨?_, ?_, ?_, ?_, ?_⟩
  · rintro ⟨g, hg, hgp⟩
    have hs : (entry.gauges.find? (fun g => decide (|g.mm - gaugeMm| < 5 / 1000))).isSome :=
      List.find?_isSome.mpr ⟨g, hg, by simpa using hgp⟩
    obtain ⟨g', hg'⟩ := Option.isSome_iff_exists.mp hs
    refine ⟨g', List.mem_of_find?_eq_some hg', ?_, ?_⟩
    · have := List.find?_some hg'
      simpa using this
    · rw [hlook, hg']
  · intro hnear hlow
    have hfnone : entry.gauges.find? (fun g => decide (|g.mm - gaugeMm| < 5 / 1000)) = none :=
      List.find?_eq_none.mpr (fun g hg => by simpa using hnear g hg)
    refine ⟨g0, (hmemsort g0).mp (List.mem_cons_self g0 gs),
      fun g' hg' => hg0min g' ((hmemsort g').mpr hg'), ?_⟩
    rw [hlook, hfnone, hsrt]
    show (if gaugeMm < g0.mm then some (g0.linearDensityGM / 1000)
        else if ((g0 :: gs).getLast (List.cons_ne_nil g0 gs)).mm < gaugeMm then
          some (((g0 :: gs).getLast (List.cons_ne_nil g0 gs)).linearDensityGM / 1000)
        else findBracket gaugeMm (g0 :: gs)) = some (g0.linearDensityGM / 1000)
    rw [if_pos (hlow g0 ((hmemsort g0).mp (List.mem_cons_self g0 gs)))]
  · intro hnear hhigh
    have hfnone : entry.gauges.find? (fun g => decide (|g.mm - gaugeMm| < 5 / 1000)) = none :=
      List.find?_eq_none.mpr (fun g hg => by simpa using hnear g hg)
    have hlastgm : ((g0 :: gs).getLast (List.cons_ne_nil g0 gs)).mm < gaugeMm :=
      hhigh _ ((hmemsort _).mp hlastmem)
    have hnotlow : ¬gaugeMm < g0.mm :=
      not_lt.mpr (le_of_lt (hhigh g0 ((hmemsort g0).mp (List.mem_cons_self g0 gs))))
    refine ⟨(g0 :: gs).getLast (List.cons_ne_nil g0 gs), (hmemsort _).mp hlastmem,
      fun g' hg' => hlastmax g' ((hmemsort g').mpr hg'), ?_⟩
    rw [hlook, hfnone, hsrt]
    show (if gaugeMm < g0.mm then some (g0.linearDensityGM / 1000)
        else if ((g0 :: gs).getLast (List.cons_ne_nil g0 gs)).mm < gaugeMm then
          some (((g0 :: gs).getLast (List.cons_ne_nil g0 gs)).linearDensityGM / 1000)
        else findBracket gaugeMm (g0 :: gs))
      = some (((g0 :: gs).getLast (List.cons_ne_nil g0 gs)).linearDensityGM / 1000)
    rw [if_neg hnotlow, if_pos hlastgm]
  · intro hnear hlo hhi
    have hfnone : entry.gauges.find? (fun g => decide (|g.mm - gaugeMm| < 5 / 1000)) = none :=
      List.find?_eq_none.mpr (fun g hg => by simpa using hnear g hg)
    obtain ⟨glo, hglo, hglomm⟩ := hlo
    obtain ⟨ghi, hghi, hghimm⟩ := hhi
    have hnotlow : ¬gaugeMm < g0.mm :=
      not_lt.mpr (le_trans (hg0min glo ((hmemsort glo).mpr hglo)) hglomm)
    have hnothigh : ¬((g0 :: gs).getLast (List.cons_ne_nil g0 gs)).mm < gaugeMm :=
      not_lt.mpr (le_trans hghimm (hlastmax ghi ((hmemsort ghi).mpr hghi)))
    have hnear' : ∀ g ∈ g0 :: gs, ¬|g.mm - gaugeMm| < 5 / 1000 :=
      fun g hg => hnear g ((hmemsort g).mp hg)
    have hg0le : g0.mm ≤ gaugeMm := not_lt.mp hnotlow
    have hex : ∃ b ∈ g0 :: gs, gaugeMm ≤ b.mm := ⟨ghi, (hmemsort ghi).mpr hghi, hghimm⟩
    obtain ⟨x, y, l1, l2, heq, hx, hy, hres⟩ := findBracket_spec gaugeMm gs g0 hnear' hg0le hex
    have hxmem : x ∈ g0 :: gs := by
      rw [heq]
      exact List.mem_append_right _ (List.mem_cons_self _ _)
    have hymem : y ∈ g0 :: gs := by
      rw [heq]
      exact List.mem_append_right _ (List.mem_cons_of_mem _ (List.mem_cons_self _ _))
    refine ⟨x, y, l1, l2, (hmemsort x).mp hxmem, (hmemsort y).mp hymem,
      by rw [hsrt, heq], hx, hy, ?_⟩
    rw [hlook, hfnone, hsrt]
    show (if gaugeMm < g0.mm then some (g0.linearDensityGM / 1000)
        else if ((g0 :: gs).getLast (List.cons_ne_nil g0 gs)).mm < gaugeMm then
          some (((g0 :: gs).getLast (List.cons_ne_nil g0 gs)).linearDensityGM / 1000)
        else findBracket gaugeMm (g0 :: gs))
      = some ((x.linearDensityGM + (gaugeMm - x.mm) / (y.mm - x.mm)
          * (y.linearDensityGM - x.linearDensityGM)) / 1000)
    rw [if_neg hnotlow, if_neg hnothigh]
    exact hres
  · by_cases hexist : ∃ g ∈ entry.gauges, |g.mm - gaugeMm| < 5 / 1000
    · obtain ⟨g, hg, hgp⟩ := hexist
      have hs : (entry.gauges.find? (fun g => decide (|g.mm - gaugeMm| < 5 / 1000))).isSome :=
        List.find?_isSome.mpr ⟨g, hg, by simpa using hgp⟩
      obtain ⟨g', hg'⟩ := Option.isSome_iff_exists.mp hs
      rw [hlook, hg']
      simp
    · push_neg at hexist
      have hnear : ∀ g ∈ entry.gauges, ¬|g.mm - gaugeMm| < 5 / 1000 := by
        intro g hg
        exact not_lt.mpr (hexist g hg)
      have hfnone : entry.gauges.find? (fun g => decide (|g.mm - gaugeMm| < 5 / 1000)) = none :=
        List.find?_eq_none.mpr (fun g hg => by simpa using hnear g hg)
      rw [hlook, hfnone, hsrt]
      show (if gaugeMm < g0.mm then some (g0.linearDensityGM / 1000)
          else if ((g0 :: gs).getLast (List.cons_ne_nil g0 gs)).mm < gaugeMm then
            some (((g0 :: gs).getLast (List.cons_ne_nil g0 gs)).linearDensityGM / 1000)
          else findBracket gaugeMm (g0 :: gs)) ≠ none
      by_cases c1 : gaugeMm < g0.mm
      · rw [if_pos c1]
        simp
      · by_cases c2 : ((g0 :: gs).getLast (List.cons_ne_nil g0 gs)).mm < gaugeMm
        · rw [if_neg c1, if_pos c2]
          simp
        · rw [if_neg c1, if_neg c2]
          have hnear' : ∀ g ∈ g0 :: gs, ¬|g.mm - gaugeMm| < 5 / 1000 :=
            fun g hg => hnear g ((hmemsort g).mp hg)
          have hex : ∃ b ∈ g0 :: gs, gaugeMm ≤ b.mm :=
            ⟨_, hlastmem, not_lt.mp c2⟩
          obtain ⟨x, y, l1, l2, _, _, _, hres⟩ :=
            findBracket_spec gaugeMm gs g0 hnear' (not_lt.mp c1) hex
          rw [hres]
          simp

theorem findEntry_aluPower :
    STRING_DATABASE.find? (fun s => s.brand == "Luxilon" && s.name == "ALU Power")
      = some ⟨"Luxilon", "ALU Power", "Polyester",
          [⟨125 / 100, 153 / 100⟩, ⟨130 / 100, 166 / 100⟩]⟩ := by
  rw [STRING_DATABASE]
  exact List.find?_cons_of_pos _ rfl

theorem density_lookup_spec_witness :
    ∃ g ∈ (⟨"Luxilon", "ALU Power", "Polyester",
        [⟨125 / 100, 153 / 100⟩, ⟨130 / 100, 166 / 100⟩]⟩ : StringModel).gauges,
      (∀ g' ∈ (⟨"Luxilon", "ALU Power", "Polyester",
          [⟨125 / 100, 153 / 100⟩, ⟨130 / 100, 166 / 100⟩]⟩ : StringModel).gauges,
        g.mm ≤ g'.mm) ∧
        lookupLinearDensity "Luxilon" "ALU Power" (110 / 100) = some (g.linearDensityGM / 1000) :=
  (density_lookup_spec "Luxilon" "ALU Power" (110 / 100)
    ⟨"Luxilon", "ALU Power", "Polyester", [⟨125 / 100, 153 / 100⟩, ⟨130 / 100, 166 / 100⟩]⟩
    findEntry_aluPower (by simp)).2.1
    (by
      intro g hg
      simp only [List.mem_cons, List.not_mem_nil, or_false] at hg
      rcases hg with rfl | rfl <;> norm_num [abs_lt])
    (by
      intro g hg
      simp only [List.mem_cons, List.not_mem_nil, or_false] at hg
      rcases hg with rfl | rfl <;> norm_num)

/-- **C8** (counterexample). The gauge 1.253 mm lies strictly between the
tabulated gauges 1.25 and 1.30 of Luxilon ALU Power, yet the lookup
returns the tabulated 1.25 density (1.53 g/m → 0.00153 kg/m) because of
the 0.005 mm near-match tolerance, not the linear interpolation the claim
prescribes for a gauge falling between two tabulated gauges. -/
theorem density_lookup_counterexample :
    (125 / 100 : ℚ) < 1253 / 1000 ∧ (1253 / 1000 : ℚ) < 130 / 100 ∧
      lookupLinearDensity "Luxilon" "ALU Power" (1253 / 1000) = some (153 / 100000) ∧
      (153 / 100000 : ℚ)
        ≠ ((153 / 100 : ℚ) + ((1253 / 1000 : ℚ) - 125 / 100) / (130 / 100 - 125 / 100)
            * (166 / 100 - 153 / 100)) / 1000 := by
  refine ⟨by norm_num, by norm_num, ?_, by norm_num⟩
  have hnear : ([⟨125 / 100, 153 / 100⟩, ⟨130 / 100, 166 / 100⟩] : List GaugeEntry).find?
      (fun g => decide (|g.mm - 1253 / 1000| < 5 / 1000)) = some ⟨125 / 100, 153 / 100⟩ := by
    apply List.find?_cons_of_pos
    norm_num [abs_lt]
  unfold lookupLinearDensity
  rw [findEntry_aluPower]
  simp only [hnear]
  norm_num

/-! ## String physics model (`audioAnalysis.ts` lines 150–218) and
`computeTension` (`App.tsx` lines 57–82)

These functions multiply by `Math.PI` and take square roots, so they live
in `ℝ`. -/

/-- `MATERIAL_DENSITIES` (`audioAnalysis.ts` lines 2–8), kg/m³; `none`
models an absent key. -/
def MATERIAL_DENSITIES (material : String) : Option ℚ :=
  if material = "Polyester" then some 1380
  else if material = "Nylon" then some 1140
  else if material = "NaturalGut" then some 1320
  else if material = "Multifilament" then some 1150
  else if material = "Kevlar" then some 1440
  else none

/-- `parseInt` on a digit string. -/
def digitsToNat (cs : List Char) : ℕ :=
  cs.foldl (fun a c => 10 * a + (c.toNat - 48)) 0

/-- `parseStringPattern` (`audioAnalysis.ts` lines 177–181): the regular
expression `^(\d+)\s*x\s*(\d+)$` rendered as greedy spans (digit,
whitespace and `x` classes are disjoint, so greedy spans match the regex
semantics); fallback `(16, 19)`. -/
def parseStringPattern (pattern : String) : ℕ × ℕ :=
  let cs := pattern.toList
  let p1 := cs.span (fun c => c.isDigit)
  let p2 := p1.2.span (fun c => c.isWhitespace)
  match p2.2 with
  | 'x' :: r3 =>
    let p3 := r3.span (fun c => c.isWhitespace)
    let p4 := p3.2.span (fun c => c.isDigit)
    if p1.1 ≠ [] ∧ p4.1 ≠ [] ∧ p4.2 = [] then (digitsToNat p1.1, digitsToNat p4.1)
    else (16, 19)
  | _ => (16, 19)

/-- `crossStringMassLoadingFactor` (`audioAnalysis.ts` lines 198–202). -/
def crossStringMassLoadingFactor (crosses : ℕ) : ℚ :=
  1 + ((crosses : ℚ) - 19) * (15 / 10000)

/-- `calculateLinearDensity` (`audioAnalysis.ts` lines 150–157). -/
noncomputable def calculateLinearDensity (gaugeMm materialDensity : ℝ) : ℝ :=
  let radiusM := (gaugeMm / 2) / 1000
  (Real.pi * radiusM * radiusM) * materialDensity

/-- `estimateStringLength` (`audioAnalysis.ts` lines 166–172). -/
noncomputable def estimateStringLength (headSizeSqIn : ℝ) : ℝ :=
  let areaM2 := headSizeSqIn * 0.00064516
  let semiMajor := Real.sqrt ((areaM2 * 1.45) / Real.pi)
  let fullLength := 2 * semiMajor
  fullLength * 0.96

/-- JavaScript `Math.round(x * 100) / 100`. -/
noncomputable def round2 (x : ℝ) : ℝ := (round (x * 100) : ℤ) / 100

/-- `calculateTension` (`audioAnalysis.ts` lines 207–218): wave equation
`T = μ(2Lf)²`, pound conversion, both rounded to two decimals. -/
noncomputable def calculateTension (frequencyHz stringLengthM linearDensityKgM : ℝ) : ℝ × ℝ :=
  let tensionNewtons := linearDensityKgM * (2 * stringLengthM * frequencyHz) ^ 2
  let tensionLbs := tensionNewtons * 0.224809
  (round2 tensionNewtons, round2 tensionLbs)

/-- The setup-form fields of `App.tsx`.  The numeric fields are free-text
strings in the source, read through `parseFloat` at each use site; they
are modelled as the parse result, `none` standing for `NaN` (empty or
non-numeric input). -/
structure TensionSettings where
  material : String
  gaugeMm : Option ℚ
  headSizeSqIn : Option ℚ
  stringPattern : String
  stringKey : String
  stringLengthMm : Option ℚ

/-- `computeTension` (`App.tsx` lines 57–82).  `parseFloat(x) || d`
yields the fallback `d` for `NaN` and for `0` (JS `||`); `measuredMm > 0`
is false for `NaN`.  The material densities are all nonzero, so
`MATERIAL_DENSITIES[m] || 1380` is `getD 1380`. -/
noncomputable def computeTension (settings : TensionSettings) (frequencyHz : ℝ) : ℝ × ℝ :=
  let gaugeMm : ℚ := normalizeGaugeMm (match settings.gaugeMm with
    | some q => if q = 0 then 5 / 4 else q
    | none => 5 / 4)
  let linearDensityBase : ℝ :=
    if settings.stringKey ≠ "" then
      match lookupLinearDensity ((settings.stringKey.splitOn "|").getD 0 "")
          ((settings.stringKey.splitOn "|").getD 1 "") gaugeMm with
      | some d => (d : ℝ)
      | none => calculateLinearDensity (gaugeMm : ℝ)
          (((MATERIAL_DENSITIES settings.material).getD 1380 : ℚ) : ℝ)
    else
      calculateLinearDensity (gaugeMm : ℝ)
        (((MATERIAL_DENSITIES settings.material).getD 1380 : ℚ) : ℝ)
  let crosses := (parseStringPattern settings.stringPattern).2
  let linearDensity := linearDensityBase * ((crossStringMassLoadingFactor crosses : ℚ) : ℝ)
  let headSize : ℚ := match settings.headSizeSqIn with
    | some q => if q = 0 then 100 else q
    | none => 100
  let stringLength : ℝ := match settings.stringLengthMm with
    | some measuredMm =>
      if 0 < measuredMm then ((measuredMm : ℝ)) / 1000
      else estimateStringLength ((headSize : ℚ) : ℝ)
    | none => estimateStringLength ((headSize : ℚ) : ℝ)
  calculateTension frequencyHz stringLength linearDensity

/-- The example scenario of the claim: Polyester, gauge 1.25 mm, head
100 sq in, pattern 16×19, no database string, no measured length. -/
def exampleSettings : TensionSettings :=
  ⟨"Polyester", some (5 / 4), some 100, "16x19", "", none⟩

theorem estimateStringLength_100_bounds :
    (0.331 : ℝ) < estimateStringLength 100 ∧ estimateStringLength 100 < 0.3314 := by
  have hpi1 := Real.pi_gt_d6
  have hpi2 := Real.pi_lt_d6
  have hpi0 := Real.pi_pos
  have harg_lo : (0.0297735025 : ℝ) < 100 * 0.00064516 * 1.45 / Real.pi := by
    rw [lt_div_iff₀ hpi0]
    nlinarith
  have harg_hi : 100 * 0.00064516 * 1.45 / Real.pi < 0.0297804049 := by
    rw [div_lt_iff₀ hpi0]
    nlinarith
  have hs_lo : (0.17255 : ℝ) < Real.sqrt (100 * 0.00064516 * 1.45 / Real.pi) :=
    (Real.lt_sqrt (by norm_num)).mpr (by nlinarith)
  have hs_hi : Real.sqrt (100 * 0.00064516 * 1.45 / Real.pi) < 0.17257 :=
    (Real.sqrt_lt' (by norm_num)).mpr (by nlinarith)
  unfold estimateStringLength
  constructor <;> nlinarith

theorem crossFactor_19 : crossStringMassLoadingFactor 19 = 1 := by
  norm_num [crossStringMassLoadingFactor]

theorem parsePattern_16x19 : parseStringPattern "16x19" = (16, 19) := by rfl

theorem normalizeGaugeMm_125 : normalizeGaugeMm (5 / 4) = 5 / 4 := by
  unfold normalizeGaugeMm
  rw [if_pos (by norm_num)]

theorem estimateStringLength_100_sq :
    estimateStringLength 100 ^ 2 = 3.6864 * (100 * 0.00064516 * 1.45) / Real.pi := by
  unfold estimateStringLength
  have h0 : (0 : ℝ) ≤ 100 * 0.00064516 * 1.45 / Real.pi := by positivity
  rw [show (2 * Real.sqrt (100 * 0.00064516 * 1.45 / Real.pi) * 0.96) ^ 2
      = 3.6864 * Real.sqrt (100 * 0.00064516 * 1.45 / Real.pi) ^ 2 from by ring]
  rw [Real.sq_sqrt h0]
  ring

theorem computeTension_example :
    (computeTension exampleSettings 420).2
      = round2 (calculateLinearDensity (((5 / 4 : ℚ)) : ℝ) 1380
          * (2 * estimateStringLength 100 * 420) ^ 2 * 0.224809) := by
  unfold computeTension calculateTension
  norm_num [exampleSettings, normalizeGaugeMm_125, parsePattern_16x19, MATERIAL_DENSITIES,
    crossFactor_19]

theorem tension_example_newtons :
    calculateLinearDensity (((5 / 4 : ℚ)) : ℝ) 1380 * (2 * estimateStringLength 100 * 420) ^ 2
      = (1 / 2560000) * 1380 * 705600 * 3.6864 * (100 * 0.00064516 * 1.45) := by
  rw [show (2 * estimateStringLength 100 * 420) ^ 2
      = 705600 * estimateStringLength 100 ^ 2 from by ring]
  rw [estimateStringLength_100_sq]
  unfold calculateLinearDensity
  push_cast
  rw [show Real.pi * (5 / 4 / 2 / 1000) * (5 / 4 / 2 / 1000) * 1380
        * (705600 * (3.6864 * (100 * 0.00064516 * 1.45) / Real.pi))
      = 5 / 4 / 2 / 1000 * (5 / 4 / 2 / 1000) * 1380 * 705600 * 3.6864
        * (100 * 0.00064516 * 1.45) * (Real.pi / Real.pi) from by ring]
  rw [div_self Real.pi_ne_zero]
  norm_num

/-- **C7** (amended). For the example inputs — material Polyester
(density 1380 kg/m³), gauge 1.25 mm, head size 100 sq in, pattern 16×19,
measured frequency 420.0 Hz — the physics model computes linear density
≈ 0.001694 kg/m and tension 30.0 lbs ± 1 lb, but the vibrating length
from the head-size model is ≈ 0.3313 m (not the 0.2978 m the claim
states). -/
theorem example_scenario_spec :
    |calculateLinearDensity (((5 / 4 : ℚ)) : ℝ) 1380 - 0.001694| < 0.000001 ∧
      |estimateStringLength 100 - 0.3313| < 0.001 ∧
      |(computeTension exampleSettings 420).2 - 30| ≤ 1 := by
  refine ⟨?_, ?_, ?_⟩
  · unfold calculateLinearDensity
    push_cast
    rw [abs_lt]
    constructor <;> nlinarith [Real.pi_gt_d6, Real.pi_lt_d6]
  · obtain ⟨hlo, hhi⟩ := estimateStringLength_100_bounds
    rw [abs_lt]
    constructor <;> linarith
  · rw [computeTension_example]
    have hx : calculateLinearDensity (((5 / 4 : ℚ)) : ℝ) 1380
        * (2 * estimateStringLength 100 * 420) ^ 2 * 0.224809
        = (1 / 2560000) * 1380 * 705600 * 3.6864 * (100 * 0.00064516 * 1.45) * 0.224809 := by
      rw [tension_example_newtons]
    set x : ℝ := calculateLinearDensity (((5 / 4 : ℚ)) : ℝ) 1380
        * (2 * estimateStringLength 100 * 420) ^ 2 * 0.224809 with hxdef
    have hxlo : (29.1 : ℝ) < x := by
      rw [hx]
      norm_num
    have hxhi : x < (29.9 : ℝ) := by
      rw [hx]
      norm_num
    have hnear : |x - round2 x| ≤ 1 / 200 := by
      unfold round2
      rw [show x - (round (x * 100) : ℤ) / 100 = (x * 100 - (round (x * 100) : ℤ)) / 100
        from by ring]
      rw [abs_div, abs_of_pos (by norm_num : (0:ℝ) < 100)]
      have := abs_sub_round (x * 100)
      linarith
    have htri : |round2 x - 30| ≤ |round2 x - x| + |x - 30| := abs_sub_le _ x _
    have h30 : |x - 30| ≤ 9 / 10 := by
      rw [abs_le]
      constructor <;> linarith
    rw [abs_sub_comm] at hnear
    linarith

/-- **C7** (counterexample). The head-size model gives a vibrating length
strictly between 0.331 m and 0.332 m for a 100 sq in head — more than
0.03 m away from the ≈ 0.2978 m the claim states. -/
theorem example_scenario_counterexample :
    (0.331 : ℝ) < estimateStringLength 100 ∧ estimateStringLength 100 < 0.332 ∧
      (0.03 : ℝ) < |estimateStringLength 100 - 0.2978| := by
  obtain ⟨hlo, hhi⟩ := estimateStringLength_100_bounds
  refine ⟨hlo, by linarith, ?_⟩
  rw [abs_of_pos (by linarith)]
  linarith

/-! ### The separating buffer for claim C4

One loud 4096-sample chunk (amplitude 0.006) followed by 12288 silent
samples.  The scan visits only offset 0, whose 4096-sample chunk RMS is
0.006; the selected 16384-sample analysis window is the whole buffer,
whose RMS is 0.003. -/

def silenceExampleBuf : List ℚ :=
  List.replicate 4096 (3 / 500) ++ List.replicate 12288 0

theorem silenceExampleBuf_length : silenceExampleBuf.length = 16384 := by
  rw [silenceExampleBuf]
  simp only [List.length_append, List.length_replicate]

theorem silenceExample_sumSq_chunk :
    sliceSumSq silenceExampleBuf 0 4096 = 36864 / 250000 := by
  rw [sliceSumSq, silenceExampleBuf]
  simp only [List.drop_append_eq_append_drop, List.take_append_eq_append_take,
    List.drop_replicate, List.take_replicate, List.length_replicate, List.length_append,
    List.map_append, List.map_replicate, List.sum_append, List.sum_replicate, nsmul_eq_mul]
  norm_num

theorem silenceExample_sumSq_window :
    sliceSumSq silenceExampleBuf 0 16384 = 36864 / 250000 := by
  rw [sliceSumSq, silenceExampleBuf]
  simp only [List.drop_append_eq_append_drop, List.take_append_eq_append_take,
    List.drop_replicate, List.take_replicate, List.length_replicate, List.length_append,
    List.map_append, List.map_replicate, List.sum_append, List.sum_replicate, nsmul_eq_mul]
  norm_num

theorem silenceExample_chunk : chunkMeanSq silenceExampleBuf 0 = 9 / 250000 := by
  rw [chunkMeanSq, silenceExampleBuf_length,
    show checkLen 16384 0 = 4096 from by norm_num [checkLen], silenceExample_sumSq_chunk]
  norm_num

theorem scanOffsets_16384 : scanOffsets 16384 = [0] := by
  rw [scanOffsets]
  norm_num [List.range_succ, List.range_zero]

theorem silenceExample_selectScan : selectScan silenceExampleBuf = (0, 9 / 250000) := by
  rw [selectScan, silenceExampleBuf_length, scanOffsets_16384]
  norm_num [List.foldl_cons, List.foldl_nil, silenceExample_chunk]

theorem silenceExample_windowStart : windowStart silenceExampleBuf = 0 := by
  rw [windowStart, silenceExample_selectScan, silenceExampleBuf_length]
  rfl

theorem silenceExample_windowMeanSq : windowMeanSq silenceExampleBuf 0 = 9 / 1000000 := by
  rw [windowMeanSq, silenceExampleBuf_length,
    show min 16384 (16384 - 0) = 16384 from by norm_num, silenceExample_sumSq_window]
  norm_num

theorem bestOf_pair (o : ℕ) (q : ℚ) : bestOf (o, q) = q := rfl

theorem bestMeanSq_of_scan (buf : List ℚ) (o : ℕ) (q : ℚ)
    (h : selectScan buf = (o, q)) : bestMeanSq buf = q := by
  unfold bestMeanSq
  rw [h, bestOf_pair]

theorem silenceExample_bestMeanSq : bestMeanSq silenceExampleBuf = 9 / 250000 :=
  bestMeanSq_of_scan silenceExampleBuf 0 (9 / 250000) silenceExample_selectScan

/-- **C4** (counterexample).  On `silenceExampleBuf` the selected
16384-sample analysis window has RMS `√(9·10⁻⁶) = 0.003 < 0.004`
(radicands compared, see `rmsGate_iff`), so by the claim the tick must
produce no frequency estimate and leave the consensus buffer unchanged.
But the gate at line 86 tests the best 4096-sample chunk RMS
`√(9/250000) = 0.006 ≥ 0.004`, so estimation is not skipped: the tick
invokes the detector (abstracted as `detect`, standing for
`detectFundamentalFrequency` on the selected window, here returning an
estimate of 300 Hz) and the estimate it produces advances the consensus
buffer — refuting the claim as stated. -/
theorem silence_gate_counterexample :
    windowMeanSq silenceExampleBuf (windowStart silenceExampleBuf)
        < MIN_SIGNAL_RMS * MIN_SIGNAL_RMS ∧
      producedEstimate silenceExampleBuf (fun _ => some 300) = some 300 ∧
      (fullTick initialMachine silenceExampleBuf none (fun _ => some 300)).readings = [300] := by
  have hprod : producedEstimate silenceExampleBuf (fun _ => some 300) = some 300 := by
    unfold producedEstimate
    rw [silenceExample_bestMeanSq, if_pos (by norm_num [MIN_SIGNAL_RMS])]
  refine ⟨?_, hprod, ?_⟩
  · rw [silenceExample_windowStart, silenceExample_windowMeanSq]
    norm_num [MIN_SIGNAL_RMS]
  · unfold fullTick
    rw [hprod]
    rw [tick_accepted initialMachine 300 none rfl (by norm_num) rfl]
    simp [initialMachine, isConsistent, LOCK_COUNT]
